import Mathlib

/-!
# Foot / hip IK update of `AFpsIkCharacter`

A shallow embedding of the per-tick IK pipeline of
`Source/FpsIk/FpsIkCharacter.cpp` (`Tick`, `UpdateIK`, `TraceFoot`, `UpdateHip`,
`UpdateFootEffector`) together with the member defaults of `FpsIkCharacter.h`.

Scalars (`float` in the source) are elements of a linear ordered field `α`, so the
development is about exact arithmetic: rounding is not modelled. The functions the
source calls in the game engine (`FVector::Size`, `FMath::Atan2`,
`FMath::RadiansToDegrees`, `FMath::FInterpTo`, `FMath::RInterpTo`,
`FMath::IsNearlyZero`) have no body in the repository; they are the fields of an
`Engine` record that every embedded function takes as a parameter.
-/

namespace FpsIk

/-! ## Data model -/

/-- Engine vector `FVector`: three scalar components. -/
structure FVector (α : Type) where
  X : α
  Y : α
  Z : α
deriving DecidableEq, Repr

/-- Engine rotator `FRotator`; the constructor takes `(Pitch, Yaw, Roll)` in that order. -/
structure FRotator (α : Type) where
  Pitch : α
  Yaw : α
  Roll : α
deriving DecidableEq, Repr

/-- Component-wise difference of vectors, `operator-` of `FVector`. -/
def FVector.sub {α : Type} [Sub α] (a b : FVector α) : FVector α :=
  ⟨a.X - b.X, a.Y - b.Y, a.Z - b.Z⟩

/-- The part of `FHitResult` that `TraceFoot` reads. -/
structure FHitResult (α : Type) where
  Location : FVector α
  Normal : FVector α
  TraceStart : FVector α
  TraceEnd : FVector α
deriving DecidableEq, Repr

/-- Socket names (`FName`). -/
abbrev FName := String

/-- The engine functions called by the IK code. Their bodies are outside the
repository, so the embedding is parametric in them. -/
structure Engine (α : Type) where
  /-- Length of a vector, `FVector::Size`. -/
  Size : FVector α → α
  /-- Two-argument arctangent in radians, `FMath::Atan2 (Y, X)`. -/
  Atan2 : α → α → α
  /-- Conversion of an angle, `FMath::RadiansToDegrees`. -/
  RadiansToDegrees : α → α
  /-- Scalar interpolation step, `FMath::FInterpTo (Current, Target, DeltaTime, InterpSpeed)`. -/
  FInterpTo : α → α → α → α → α
  /-- Rotator interpolation step, `FMath::RInterpTo (Current, Target, DeltaTime, InterpSpeed)`. -/
  RInterpTo : FRotator α → FRotator α → α → α → FRotator α
  /-- Tolerance test `FMath::IsNearlyZero`. -/
  IsNearlyZero : α → Bool

/-- What the game world answers during one tick: the actor's velocity and
location, the world location of each mesh socket, and the result of a line trace
between two points (the blocking hit's location and surface normal, or nothing). -/
structure World (α : Type) where
  Velocity : FVector α
  ActorLocation : FVector α
  SocketLocation : FName → FVector α
  Trace : FVector α → FVector α → Option (FVector α × FVector α)

/-- The members of `AFpsIkCharacter` used by the IK update (`FpsIkCharacter.h`,
lines 74-98), and the half-height stored in the character's capsule component
(read with `GetScaledCapsuleHalfHeight`, written with `SetCapsuleHalfHeight`). -/
@[ext]
structure AFpsIkCharacter (α : Type) where
  m_FootInterpSpeed : α
  m_HipInterpSpeed : α
  m_TraceDistance : α
  m_AdjustOffset : α
  m_CapsuleHalfHeight : α
  m_LeftFootOffset : α
  m_RightFootOffset : α
  m_LeftFootSocket : FName
  m_RightFootSocket : FName
  m_LeftEffectorLocation : α
  m_RightEffectorLocation : α
  m_LeftFootRotation : FRotator α
  m_RightFootRotation : FRotator α
  m_HipOffset : α
  CapsuleHalfHeight : α

section Code

variable {α : Type} [LinearOrderedField α]

/-- The character as the constructor leaves it: the header's default member
initialisers, a capsule of half-height 96 copied into `m_CapsuleHalfHeight`, and
zero for the members the header leaves without an initialiser. -/
def AFpsIkCharacter.ctor : AFpsIkCharacter α where
  m_FootInterpSpeed := 13
  m_HipInterpSpeed := 7
  m_TraceDistance := 55
  m_AdjustOffset := 2
  m_CapsuleHalfHeight := 96
  m_LeftFootOffset := 0
  m_RightFootOffset := 0
  m_LeftFootSocket := "foot_lSocket"
  m_RightFootSocket := "foot_rSocket"
  m_LeftEffectorLocation := 0
  m_RightEffectorLocation := 0
  m_LeftFootRotation := ⟨0, 0, 0⟩
  m_RightFootRotation := ⟨0, 0, 0⟩
  m_HipOffset := 0
  CapsuleHalfHeight := 96

/-- `UWorld::LineTraceSingleByChannel (Hit, Start, End, ...)`: the boolean result
and the filled `Hit` become an `Option`; the hit records the traced segment. -/
def LineTraceSingleByChannel (W : World α) (Start End : FVector α) : Option (FHitResult α) :=
  (W.Trace Start End).map fun p => ⟨p.1, p.2, Start, End⟩

/-- `Start` of `TraceFoot` (line 83). -/
def TraceFoot.Start (W : World α) (SocketName : FName) : FVector α :=
  ⟨(W.SocketLocation SocketName).X, (W.SocketLocation SocketName).Y, W.ActorLocation.Z⟩

/-- `End` of `TraceFoot` (line 84): the bottom end of the probe segment. -/
def TraceFoot.End (c : AFpsIkCharacter α) (W : World α) (SocketName : FName) : FVector α :=
  ⟨(W.SocketLocation SocketName).X, (W.SocketLocation SocketName).Y,
    W.ActorLocation.Z - c.m_CapsuleHalfHeight - c.m_TraceDistance⟩

/-- `NewRotation` of `TraceFoot` (line 93): the rotation the foot is turned toward. -/
def TraceFoot.NewRotation (E : Engine α) (Hit : FHitResult α) : FRotator α :=
  ⟨-E.RadiansToDegrees (E.Atan2 Hit.Normal.X Hit.Normal.Z), 0,
    E.RadiansToDegrees (E.Atan2 Hit.Normal.Y Hit.Normal.Z)⟩

set_option linter.unusedVariables false in
/-- `AFpsIkCharacter::TraceFoot` (lines 78-100). The two reference parameters
`OutOffset` and `OutRotation` are passed in and returned as a pair. -/
def TraceFoot (E : Engine α) (c : AFpsIkCharacter α) (W : World α) (SocketName : FName)
    (OutOffset : α) (OutRotation : FRotator α) (DeltaTime : α) : α × FRotator α :=
  match LineTraceSingleByChannel W (TraceFoot.Start W SocketName) (TraceFoot.End c W SocketName) with
  | some Hit =>
      (E.Size (Hit.Location.sub Hit.TraceEnd) - c.m_TraceDistance + c.m_AdjustOffset,
        E.RInterpTo OutRotation (TraceFoot.NewRotation E Hit) DeltaTime c.m_FootInterpSpeed)
  | none => (0, OutRotation)

/-- `NewOffset` of `UpdateHip` (lines 104-105): the value the hip offset is moved toward. -/
def UpdateHip.NewOffset (c : AFpsIkCharacter α) : α :=
  let NewOffset := min (min c.m_LeftFootOffset c.m_RightFootOffset) 0
  if NewOffset < 0 then NewOffset else 0

/-- The hip offset after line 106 of `UpdateHip`. -/
def UpdateHip.HipOffset (E : Engine α) (c : AFpsIkCharacter α) (DeltaTime : α) : α :=
  E.FInterpTo c.m_HipOffset (UpdateHip.NewOffset c) DeltaTime c.m_HipInterpSpeed

/-- `NewCapsuleHalfHeight` of `UpdateHip` (line 108): the value the capsule
half-height is moved toward; it reads the hip offset that line 106 has just written. -/
def UpdateHip.NewCapsuleHalfHeight (E : Engine α) (c : AFpsIkCharacter α) (DeltaTime : α) : α :=
  c.m_CapsuleHalfHeight - |UpdateHip.HipOffset E c DeltaTime| / 2

/-- `AFpsIkCharacter::UpdateHip` (lines 102-110). -/
def UpdateHip (E : Engine α) (c : AFpsIkCharacter α) (DeltaTime : α) : AFpsIkCharacter α :=
  { c with
    m_HipOffset := UpdateHip.HipOffset E c DeltaTime
    CapsuleHalfHeight :=
      E.FInterpTo c.CapsuleHalfHeight (UpdateHip.NewCapsuleHalfHeight E c DeltaTime) DeltaTime
        c.m_HipInterpSpeed }

/-- `AFpsIkCharacter::UpdateFootEffector` (lines 112-115); the reference
parameter `OutEffectorLocation` is passed in and returned. -/
def UpdateFootEffector (E : Engine α) (c : AFpsIkCharacter α) (OutEffectorLocation FootOffset
    DeltaTime : α) : α :=
  E.FInterpTo OutEffectorLocation (FootOffset - c.m_HipOffset) DeltaTime c.m_FootInterpSpeed

/-- The character after lines 71-72 of `UpdateIK`: both feet have been traced, the
left foot first. -/
def UpdateIK.Feet (E : Engine α) (c : AFpsIkCharacter α) (W : World α) (DeltaTime : α) :
    AFpsIkCharacter α :=
  let l := TraceFoot E c W c.m_LeftFootSocket c.m_LeftFootOffset c.m_LeftFootRotation DeltaTime
  let c1 := { c with m_LeftFootOffset := l.1, m_LeftFootRotation := l.2 }
  let r := TraceFoot E c1 W c1.m_RightFootSocket c1.m_RightFootOffset c1.m_RightFootRotation
    DeltaTime
  { c1 with m_RightFootOffset := r.1, m_RightFootRotation := r.2 }

/-- `AFpsIkCharacter::UpdateIK` (lines 69-76): both feet are traced, then the hip
is updated, then both effectors. -/
def UpdateIK (E : Engine α) (c : AFpsIkCharacter α) (W : World α) (DeltaTime : α) :
    AFpsIkCharacter α :=
  let c2 := UpdateIK.Feet E c W DeltaTime
  let c3 := UpdateHip E c2 DeltaTime
  let c4 := { c3 with
    m_LeftEffectorLocation :=
      UpdateFootEffector E c3 c3.m_LeftEffectorLocation c3.m_LeftFootOffset DeltaTime }
  { c4 with
    m_RightEffectorLocation :=
      UpdateFootEffector E c4 c4.m_RightEffectorLocation c4.m_RightFootOffset DeltaTime }

/-- `AFpsIkCharacter::Tick` (lines 59-67): the IK update runs only while the
actor's speed is nearly zero; otherwise every member keeps its value. -/
def Tick (E : Engine α) (c : AFpsIkCharacter α) (W : World α) (DeltaTime : α) :
    AFpsIkCharacter α :=
  if E.IsNearlyZero (E.Size W.Velocity) then UpdateIK E c W DeltaTime else c

/-- A run of ticks: each entry is the world seen during that tick and its `DeltaTime`. -/
def runTicks (E : Engine α) (c : AFpsIkCharacter α) : List (World α × α) → AFpsIkCharacter α
  | [] => c
  | t :: ts => runTicks E (Tick E c t.1 t.2) ts

/-! ## Concrete engines and worlds -/

/-- Default tolerance of `FMath::IsNearlyZero`, the engine constant `SMALL_NUMBER`. -/
def SMALL_NUMBER : α := 1 / 100000000

/-- Modelled from the spec: the exponential interpolation step that sections 4.2 to
4.4 ascribe to `FMath::FInterpTo`, whose body is not in the repository. The
remaining error to the target is multiplied by `exp (-(InterpSpeed * DeltaTime))`.
The exponential function is a parameter, so that the step is computable over any
field that has one. -/
def expInterpTo (exp : α → α) (Current Target DeltaTime InterpSpeed : α) : α :=
  Target + (Current - Target) * exp (-(InterpSpeed * DeltaTime))

/-- Modelled from the spec: the two-argument arctangent `atan2 (Y, X)` of section
4.2, standing for `FMath::Atan2`, written with a one-argument arctangent and `pi`. -/
def atan2Of (arctan : α → α) (pi Y X : α) : α :=
  if 0 < X then arctan (Y / X)
  else if X < 0 then (if 0 ≤ Y then arctan (Y / X) + pi else arctan (Y / X) - pi)
  else if 0 < Y then pi / 2
  else if Y < 0 then -(pi / 2)
  else 0

/-- Modelled from the spec: the engine functions as the spec describes them,
none of which has a body in the repository. `Size` is the Euclidean length
(section 4.1, `|hitPoint - probeEnd|`), `Atan2` and the conversion to degrees are
those of section 4.2, `FInterpTo` is the exponential step `expInterpTo`,
`RInterpTo` applies that step to each angle, and `IsNearlyZero` compares the
magnitude with `SMALL_NUMBER`. Square root, exponential, arctangent and `pi` are
parameters. -/
def specEngine (sqrt exp arctan : α → α) (pi : α) : Engine α where
  Size v := sqrt (v.X * v.X + v.Y * v.Y + v.Z * v.Z)
  Atan2 := atan2Of arctan pi
  RadiansToDegrees r := r * (180 / pi)
  FInterpTo := expInterpTo exp
  RInterpTo Current Target DeltaTime InterpSpeed :=
    ⟨expInterpTo exp Current.Pitch Target.Pitch DeltaTime InterpSpeed,
      expInterpTo exp Current.Yaw Target.Yaw DeltaTime InterpSpeed,
      expInterpTo exp Current.Roll Target.Roll DeltaTime InterpSpeed⟩
  IsNearlyZero x := decide (|x| ≤ SMALL_NUMBER)

/-- A clamped linear blend, `Current + (Target - Current) * Clamp (DeltaTime *
InterpSpeed, 0, 1)`: an interpolation step that stays between `Current` and
`Target` for every `DeltaTime` and `InterpSpeed`. It serves as a concrete
instance of the `FInterpTo` parameter. -/
def clampedInterpTo (Current Target DeltaTime InterpSpeed : α) : α :=
  Current + (Target - Current) * max 0 (min (DeltaTime * InterpSpeed) 1)

/-- A world for concrete evaluations. The actor stands still at the origin, the
left socket is at `Y = -10` and the right socket at `Y = 10`; the trace of a foot
answers with that foot's outcome: `some (d, n)` is a blocking hit at height `d`
above the bottom end of the traced segment with surface normal `n`, `none` a miss. -/
def World.standing (L R : Option (α × FVector α)) : World α where
  Velocity := ⟨0, 0, 0⟩
  ActorLocation := ⟨0, 0, 0⟩
  SocketLocation n := if n = "foot_lSocket" then ⟨0, -10, -90⟩ else ⟨0, 10, -90⟩
  Trace _ End := (if End.Y < 0 then L else R).map fun p => (⟨End.X, End.Y, End.Z + p.1⟩, p.2)

/-- The engine `specEngine` with both interpolation steps replaced by the clamped
blend `clampedInterpTo`, applied by `RInterpTo` to each angle. -/
def clampedEngine (sqrt arctan : α → α) (pi : α) : Engine α :=
  { specEngine sqrt (fun _ => 0) arctan pi with
    FInterpTo := clampedInterpTo
    RInterpTo := fun Current Target DeltaTime InterpSpeed =>
      ⟨clampedInterpTo Current.Pitch Target.Pitch DeltaTime InterpSpeed,
        clampedInterpTo Current.Yaw Target.Yaw DeltaTime InterpSpeed,
        clampedInterpTo Current.Roll Target.Roll DeltaTime InterpSpeed⟩ }

/-! ## Properties of an interpolation step -/

/-- The step `F` at `DeltaTime` and `InterpSpeed` never leaves the interval between the
current value and the target ("overshoot-free" in the spec's glossary). -/
def OvershootFree (F : α → α → α → α → α) (DeltaTime InterpSpeed : α) : Prop :=
  ∀ Current Target : α,
    min Current Target ≤ F Current Target DeltaTime InterpSpeed ∧
      F Current Target DeltaTime InterpSpeed ≤ max Current Target

/-- The step `F` at `DeltaTime` and `InterpSpeed` shrinks the distance to the target
by a fixed factor below 1, whatever the current value and the target are. -/
def Contracting (F : α → α → α → α → α) (DeltaTime InterpSpeed : α) : Prop :=
  ∃ ρ : α, 0 ≤ ρ ∧ ρ < 1 ∧
    ∀ Current Target : α, |F Current Target DeltaTime InterpSpeed - Target| ≤ ρ * |Current - Target|

/-- The rotator step `R` shrinks the distance of each angle to its target by a
fixed factor below 1. -/
def RContracting (R : FRotator α → FRotator α → α → α → FRotator α)
    (DeltaTime InterpSpeed : α) : Prop :=
  ∃ ρ : α, 0 ≤ ρ ∧ ρ < 1 ∧
    ∀ Current Target : FRotator α,
      |(R Current Target DeltaTime InterpSpeed).Pitch - Target.Pitch| ≤
          ρ * |Current.Pitch - Target.Pitch| ∧
        |(R Current Target DeltaTime InterpSpeed).Yaw - Target.Yaw| ≤
          ρ * |Current.Yaw - Target.Yaw| ∧
        |(R Current Target DeltaTime InterpSpeed).Roll - Target.Roll| ≤
          ρ * |Current.Roll - Target.Roll|

/-- The sequence `x` converges to `L`: it is eventually within every positive
distance of `L`. -/
def ConvergesTo (x : ℕ → α) (L : α) : Prop :=
  ∀ ε : α, 0 < ε → ∃ N : ℕ, ∀ n : ℕ, N ≤ n → |x n - L| < ε

/-- The value after `k` steps of `F` toward a constant target, from `x`. -/
def interpIter (F : α → α → α → α → α) (Target DeltaTime InterpSpeed : α) : ℕ → α → α
  | 0, x => x
  | k + 1, x => F (interpIter F Target DeltaTime InterpSpeed k x) Target DeltaTime InterpSpeed

/-! ## Conditions on a tick and on a run -/

/-- Every hit of the left or right probe of `c` in the world `W` lies on the probe
segment: its distance from the bottom end of the segment is between 0 and the
segment's length `m_CapsuleHalfHeight + m_TraceDistance`. -/
def ProbesOnSegment (E : Engine α) (c : AFpsIkCharacter α) (W : World α) : Prop :=
  ∀ SocketName : FName, SocketName = c.m_LeftFootSocket ∨ SocketName = c.m_RightFootSocket →
    ∀ Hit : FHitResult α,
      LineTraceSingleByChannel W (TraceFoot.Start W SocketName)
        (TraceFoot.End c W SocketName) = some Hit →
      0 ≤ E.Size (Hit.Location.sub (TraceFoot.End c W SocketName)) ∧
        E.Size (Hit.Location.sub (TraceFoot.End c W SocketName)) ≤
          c.m_CapsuleHalfHeight + c.m_TraceDistance

/-- The members that no function of the IK update assigns: the tunings, the base
capsule half-height and the socket names of `c'` are those of `c`. -/
def SameTunings (c c' : AFpsIkCharacter α) : Prop :=
  c'.m_FootInterpSpeed = c.m_FootInterpSpeed ∧ c'.m_HipInterpSpeed = c.m_HipInterpSpeed ∧
    c'.m_TraceDistance = c.m_TraceDistance ∧ c'.m_AdjustOffset = c.m_AdjustOffset ∧
    c'.m_CapsuleHalfHeight = c.m_CapsuleHalfHeight ∧
    c'.m_LeftFootSocket = c.m_LeftFootSocket ∧ c'.m_RightFootSocket = c.m_RightFootSocket

/-- The steady state of `c` for a left hit `HitL` and a right hit `HitR`, seen on
every tick: the two foot offsets of the hits, the rotations the feet
are turned toward, the hip offset `min (min oL oR) 0`, each effector at its foot
offset minus the hip offset, and the capsule half-height
`m_CapsuleHalfHeight - |hip| / 2`. -/
def SteadyState (E : Engine α) (c : AFpsIkCharacter α) (HitL HitR : FHitResult α) :
    AFpsIkCharacter α :=
  let oL := E.Size (HitL.Location.sub HitL.TraceEnd) - c.m_TraceDistance + c.m_AdjustOffset
  let oR := E.Size (HitR.Location.sub HitR.TraceEnd) - c.m_TraceDistance + c.m_AdjustOffset
  let hip := min (min oL oR) 0
  { c with
    m_LeftFootOffset := oL
    m_RightFootOffset := oR
    m_LeftFootRotation := TraceFoot.NewRotation E HitL
    m_RightFootRotation := TraceFoot.NewRotation E HitR
    m_HipOffset := hip
    CapsuleHalfHeight := c.m_CapsuleHalfHeight - |hip| / 2
    m_LeftEffectorLocation := oL - hip
    m_RightEffectorLocation := oR - hip }

end Code

/-! ## Facts that need no arithmetic -/

section Structural

variable {α : Type}

theorem lineTrace_traceEnd (W : World α) (Start End : FVector α) (Hit : FHitResult α)
    (h : LineTraceSingleByChannel W Start End = some Hit) : Hit.TraceEnd = End := by
  unfold LineTraceSingleByChannel at h
  cases hT : W.Trace Start End with
  | none => simp [hT] at h
  | some p =>
    simp only [hT, Option.map_some', Option.some.injEq] at h
    rw [← h]

theorem sameTunings_refl (c : AFpsIkCharacter α) : SameTunings c c :=
  ⟨rfl, rfl, rfl, rfl, rfl, rfl, rfl⟩

theorem sameTunings_trans {a b c : AFpsIkCharacter α} (h1 : SameTunings a b)
    (h2 : SameTunings b c) : SameTunings a c := by
  obtain ⟨a1, a2, a3, a4, a5, a6, a7⟩ := h1
  obtain ⟨b1, b2, b3, b4, b5, b6, b7⟩ := h2
  exact ⟨b1.trans a1, b2.trans a2, b3.trans a3, b4.trans a4, b5.trans a5, b6.trans a6,
    b7.trans a7⟩

end Structural

/-! ## Probe results: `TraceFoot` -/

section TraceFootFacts

variable {α : Type} [LinearOrderedField α]

theorem traceFoot_of_none (E : Engine α) (c : AFpsIkCharacter α) (W : World α)
    (SocketName : FName) (OutOffset : α) (OutRotation : FRotator α) (DeltaTime : α)
    (h : LineTraceSingleByChannel W (TraceFoot.Start W SocketName)
      (TraceFoot.End c W SocketName) = none) :
    TraceFoot E c W SocketName OutOffset OutRotation DeltaTime = (0, OutRotation) := by
  simp only [TraceFoot, h]

theorem traceFoot_of_some (E : Engine α) (c : AFpsIkCharacter α) (W : World α)
    (SocketName : FName) (OutOffset : α) (OutRotation : FRotator α) (DeltaTime : α)
    (Hit : FHitResult α)
    (h : LineTraceSingleByChannel W (TraceFoot.Start W SocketName)
      (TraceFoot.End c W SocketName) = some Hit) :
    TraceFoot E c W SocketName OutOffset OutRotation DeltaTime =
      (E.Size (Hit.Location.sub Hit.TraceEnd) - c.m_TraceDistance + c.m_AdjustOffset,
        E.RInterpTo OutRotation (TraceFoot.NewRotation E Hit) DeltaTime c.m_FootInterpSpeed) := by
  simp only [TraceFoot, h]

theorem lineTrace_standing_left (c : AFpsIkCharacter α) (L R : Option (α × FVector α)) :
    LineTraceSingleByChannel (World.standing L R)
        (TraceFoot.Start (World.standing L R) "foot_lSocket")
        (TraceFoot.End c (World.standing L R) "foot_lSocket") =
      L.map fun p =>
        ⟨⟨0, -10, 0 - c.m_CapsuleHalfHeight - c.m_TraceDistance + p.1⟩, p.2,
          ⟨0, -10, 0⟩, ⟨0, -10, 0 - c.m_CapsuleHalfHeight - c.m_TraceDistance⟩⟩ := by
  cases L <;> simp [LineTraceSingleByChannel, World.standing, TraceFoot.Start, TraceFoot.End]

theorem lineTrace_standing_right (c : AFpsIkCharacter α) (L R : Option (α × FVector α)) :
    LineTraceSingleByChannel (World.standing L R)
        (TraceFoot.Start (World.standing L R) "foot_rSocket")
        (TraceFoot.End c (World.standing L R) "foot_rSocket") =
      R.map fun p =>
        ⟨⟨0, 10, 0 - c.m_CapsuleHalfHeight - c.m_TraceDistance + p.1⟩, p.2,
          ⟨0, 10, 0⟩, ⟨0, 10, 0 - c.m_CapsuleHalfHeight - c.m_TraceDistance⟩⟩ := by
  cases R <;> simp [LineTraceSingleByChannel, World.standing, TraceFoot.Start, TraceFoot.End]

theorem traceEnd_standing_left (c : AFpsIkCharacter α) (L R : Option (α × FVector α)) :
    TraceFoot.End c (World.standing L R) "foot_lSocket" =
      ⟨0, -10, 0 - c.m_CapsuleHalfHeight - c.m_TraceDistance⟩ := by
  simp [World.standing, TraceFoot.End]

theorem traceEnd_standing_right (c : AFpsIkCharacter α) (L R : Option (α × FVector α)) :
    TraceFoot.End c (World.standing L R) "foot_rSocket" =
      ⟨0, 10, 0 - c.m_CapsuleHalfHeight - c.m_TraceDistance⟩ := by
  simp [World.standing, TraceFoot.End]

theorem real_size_above (exp arctan : ℝ → ℝ) (pi x y z d : ℝ) (hd : 0 ≤ d) :
    (specEngine Real.sqrt exp arctan pi).Size (FVector.sub ⟨x, y, z + d⟩ ⟨x, y, z⟩) = d := by
  simp only [specEngine, FVector.sub, sub_self, mul_zero, zero_add, add_sub_cancel_left]
  exact Real.sqrt_mul_self hd

theorem real_size_zero (exp arctan : ℝ → ℝ) (pi : ℝ) :
    (specEngine Real.sqrt exp arctan pi).Size ⟨0, 0, 0⟩ = 0 := by
  simp [specEngine]

theorem real_isNearlyZero_zero (exp arctan : ℝ → ℝ) (pi : ℝ) :
    (specEngine Real.sqrt exp arctan pi).IsNearlyZero 0 = true := by
  simp [specEngine, SMALL_NUMBER]

/-- Offsets written by the two `TraceFoot` calls of `UpdateIK`. -/
theorem feet_leftOffset (E : Engine α) (c : AFpsIkCharacter α) (W : World α) (dt : α) :
    (UpdateIK.Feet E c W dt).m_LeftFootOffset =
      (TraceFoot E c W c.m_LeftFootSocket c.m_LeftFootOffset c.m_LeftFootRotation dt).1 := rfl

theorem traceFoot_tunings (E : Engine α) (c c' : AFpsIkCharacter α) (W : World α)
    (SocketName : FName) (o : α) (r : FRotator α) (dt : α)
    (h1 : c'.m_CapsuleHalfHeight = c.m_CapsuleHalfHeight)
    (h2 : c'.m_TraceDistance = c.m_TraceDistance) (h3 : c'.m_AdjustOffset = c.m_AdjustOffset)
    (h4 : c'.m_FootInterpSpeed = c.m_FootInterpSpeed) :
    TraceFoot E c' W SocketName o r dt = TraceFoot E c W SocketName o r dt := by
  simp only [TraceFoot, TraceFoot.End, h1, h2, h3, h4]

theorem feet_rightOffset (E : Engine α) (c : AFpsIkCharacter α) (W : World α) (dt : α) :
    (UpdateIK.Feet E c W dt).m_RightFootOffset =
      (TraceFoot E c W c.m_RightFootSocket c.m_RightFootOffset c.m_RightFootRotation dt).1 := rfl

theorem feet_leftRotation (E : Engine α) (c : AFpsIkCharacter α) (W : World α) (dt : α) :
    (UpdateIK.Feet E c W dt).m_LeftFootRotation =
      (TraceFoot E c W c.m_LeftFootSocket c.m_LeftFootOffset c.m_LeftFootRotation dt).2 := rfl

theorem feet_rightRotation (E : Engine α) (c : AFpsIkCharacter α) (W : World α) (dt : α) :
    (UpdateIK.Feet E c W dt).m_RightFootRotation =
      (TraceFoot E c W c.m_RightFootSocket c.m_RightFootOffset c.m_RightFootRotation dt).2 := rfl

theorem traceFoot_offset_le (E : Engine α) (c : AFpsIkCharacter α) (W : World α)
    (SocketName : FName) (o : α) (r : FRotator α) (dt : α)
    (h : ∀ Hit, LineTraceSingleByChannel W (TraceFoot.Start W SocketName)
        (TraceFoot.End c W SocketName) = some Hit →
      E.Size (Hit.Location.sub (TraceFoot.End c W SocketName)) ≤
        c.m_TraceDistance - c.m_AdjustOffset) :
    (TraceFoot E c W SocketName o r dt).1 ≤ 0 := by
  cases hT : LineTraceSingleByChannel W (TraceFoot.Start W SocketName)
      (TraceFoot.End c W SocketName) with
  | none => rw [traceFoot_of_none E c W SocketName o r dt hT]
  | some Hit =>
    rw [traceFoot_of_some E c W SocketName o r dt Hit hT, lineTrace_traceEnd W _ _ Hit hT]
    have := h Hit hT
    simp only
    linarith

end TraceFootFacts

/-! ## The hip offset never becomes positive -/

section HipFacts

variable {α : Type} [LinearOrderedField α]

theorem newOffset_nonpos (c : AFpsIkCharacter α) : UpdateHip.NewOffset c ≤ 0 := by
  unfold UpdateHip.NewOffset
  simp only
  split_ifs with h
  · exact le_of_lt h
  · exact le_refl 0

theorem newOffset_eq_min (c : AFpsIkCharacter α) :
    UpdateHip.NewOffset c = min (min c.m_LeftFootOffset c.m_RightFootOffset) 0 := by
  unfold UpdateHip.NewOffset
  simp only
  split_ifs with h
  · rfl
  · have h1 : min (min c.m_LeftFootOffset c.m_RightFootOffset) 0 ≤ 0 := min_le_right _ _
    exact le_antisymm (le_of_not_lt h) h1

theorem feet_hipOffset (E : Engine α) (c : AFpsIkCharacter α) (W : World α) (dt : α) :
    (UpdateIK.Feet E c W dt).m_HipOffset = c.m_HipOffset := rfl

theorem feet_hipSpeed (E : Engine α) (c : AFpsIkCharacter α) (W : World α) (dt : α) :
    (UpdateIK.Feet E c W dt).m_HipInterpSpeed = c.m_HipInterpSpeed := rfl

theorem updateIK_hipOffset (E : Engine α) (c : AFpsIkCharacter α) (W : World α) (dt : α) :
    (UpdateIK E c W dt).m_HipOffset =
      E.FInterpTo c.m_HipOffset (UpdateHip.NewOffset (UpdateIK.Feet E c W dt)) dt
        c.m_HipInterpSpeed := rfl

theorem updateIK_hipSpeed (E : Engine α) (c : AFpsIkCharacter α) (W : World α) (dt : α) :
    (UpdateIK E c W dt).m_HipInterpSpeed = c.m_HipInterpSpeed := rfl

theorem tick_hipSpeed (E : Engine α) (c : AFpsIkCharacter α) (W : World α) (dt : α) :
    (Tick E c W dt).m_HipInterpSpeed = c.m_HipInterpSpeed := by
  unfold Tick
  split_ifs
  · rfl
  · rfl

theorem overshootFree_nonpos {F : α → α → α → α → α} {dt s : α} (hF : OvershootFree F dt s)
    {cur tgt : α} (hc : cur ≤ 0) (ht : tgt ≤ 0) : F cur tgt dt s ≤ 0 :=
  le_trans (hF cur tgt).2 (max_le hc ht)

theorem tick_hipOffset_nonpos (E : Engine α) (c : AFpsIkCharacter α) (W : World α) (dt : α)
    (hF : OvershootFree E.FInterpTo dt c.m_HipInterpSpeed) (hc : c.m_HipOffset ≤ 0) :
    (Tick E c W dt).m_HipOffset ≤ 0 := by
  unfold Tick
  split_ifs
  · rw [updateIK_hipOffset]
    exact overshootFree_nonpos hF hc (newOffset_nonpos _)
  · exact hc

theorem runTicks_hipSpeed (E : Engine α) (ticks : List (World α × α)) :
    ∀ c : AFpsIkCharacter α, (runTicks E c ticks).m_HipInterpSpeed = c.m_HipInterpSpeed := by
  induction ticks with
  | nil => intro c; rfl
  | cons t ts ih => intro c; simp only [runTicks]; rw [ih, tick_hipSpeed]

theorem runTicks_hipOffset_nonpos (E : Engine α) (ticks : List (World α × α)) :
    ∀ c : AFpsIkCharacter α,
      (∀ t ∈ ticks, OvershootFree E.FInterpTo t.2 c.m_HipInterpSpeed) → c.m_HipOffset ≤ 0 →
        (runTicks E c ticks).m_HipOffset ≤ 0 := by
  induction ticks with
  | nil => intro c _ hc; exact hc
  | cons t ts ih =>
    intro c hF hc
    simp only [runTicks]
    apply ih
    · intro u hu
      rw [tick_hipSpeed]
      exact hF u (List.mem_cons_of_mem _ hu)
    · exact tick_hipOffset_nonpos E c t.1 t.2 (hF t (List.mem_cons_self _ _)) hc

theorem clampedInterpTo_overshootFree (dt s : α) :
    OvershootFree (clampedInterpTo : α → α → α → α → α) dt s := by
  intro cur tgt
  unfold clampedInterpTo
  have hk0 : (0 : α) ≤ max 0 (min (dt * s) 1) := le_max_left _ _
  have hk1 : max 0 (min (dt * s) 1) ≤ (1 : α) := max_le zero_le_one (min_le_right _ _)
  generalize max 0 (min (dt * s) 1) = k at hk0 hk1
  rcases le_total cur tgt with h | h
  · rw [min_eq_left h, max_eq_right h]
    constructor
    · nlinarith
    · nlinarith
  · rw [min_eq_right h, max_eq_left h]
    constructor
    · nlinarith
    · nlinarith

theorem tick_of_gate (E : Engine α) (c : AFpsIkCharacter α) (W : World α) (dt : α)
    (h : E.IsNearlyZero (E.Size W.Velocity) = true) : Tick E c W dt = UpdateIK E c W dt := by
  simp only [Tick, h, if_true]

theorem real_gate_standing (exp arctan : ℝ → ℝ) (pi : ℝ) (L R : Option (ℝ × FVector ℝ)) :
    (specEngine Real.sqrt exp arctan pi).IsNearlyZero
      ((specEngine Real.sqrt exp arctan pi).Size (World.standing L R).Velocity) = true := by
  show (specEngine Real.sqrt exp arctan pi).IsNearlyZero
      ((specEngine Real.sqrt exp arctan pi).Size ⟨0, 0, 0⟩) = true
  rw [real_size_zero, real_isNearlyZero_zero]

/-- Scenario B after the two traces: a left hit 10 units above the nominal stance
and a right miss, with the default trace distance and bias. -/
theorem feet_scenarioB (E : Engine α) (c : AFpsIkCharacter α) (W : World α) (dt : α)
    (HitL : FHitResult α) (hT : c.m_TraceDistance = 55) (hA : c.m_AdjustOffset = 2)
    (hL : LineTraceSingleByChannel W (TraceFoot.Start W c.m_LeftFootSocket)
      (TraceFoot.End c W c.m_LeftFootSocket) = some HitL)
    (hd : E.Size (HitL.Location.sub (TraceFoot.End c W c.m_LeftFootSocket)) =
      c.m_TraceDistance - 10)
    (hR : LineTraceSingleByChannel W (TraceFoot.Start W c.m_RightFootSocket)
      (TraceFoot.End c W c.m_RightFootSocket) = none) :
    (UpdateIK.Feet E c W dt).m_LeftFootOffset = -8 ∧
      (UpdateIK.Feet E c W dt).m_RightFootOffset = 0 ∧
      UpdateHip.NewOffset (UpdateIK.Feet E c W dt) = -8 := by
  have h1 : (UpdateIK.Feet E c W dt).m_LeftFootOffset = -8 := by
    rw [feet_leftOffset, traceFoot_of_some E c W _ _ _ dt HitL hL,
      lineTrace_traceEnd W _ _ HitL hL]
    simp only [hd, hT, hA]
    norm_num
  have h2 : (UpdateIK.Feet E c W dt).m_RightFootOffset = 0 := by
    rw [feet_rightOffset, traceFoot_of_none E c W _ _ _ dt hR]
  refine ⟨h1, h2, ?_⟩
  rw [newOffset_eq_min, h1, h2]
  norm_num

theorem updateIK_sameTunings (E : Engine α) (c : AFpsIkCharacter α) (W : World α) (dt : α) :
    SameTunings c (UpdateIK E c W dt) :=
  ⟨rfl, rfl, rfl, rfl, rfl, rfl, rfl⟩

theorem tick_sameTunings (E : Engine α) (c : AFpsIkCharacter α) (W : World α) (dt : α) :
    SameTunings c (Tick E c W dt) := by
  unfold Tick
  split_ifs
  · exact updateIK_sameTunings E c W dt
  · exact sameTunings_refl c

theorem runTicks_sameTunings (E : Engine α) (ticks : List (World α × α)) :
    ∀ c : AFpsIkCharacter α, SameTunings c (runTicks E c ticks) := by
  induction ticks with
  | nil => intro c; exact sameTunings_refl c
  | cons t ts ih =>
    intro c
    simp only [runTicks]
    exact sameTunings_trans (tick_sameTunings E c t.1 t.2) (ih _)

theorem traceEnd_sameTunings {c c' : AFpsIkCharacter α} (h : SameTunings c c') (W : World α)
    (SocketName : FName) : TraceFoot.End c' W SocketName = TraceFoot.End c W SocketName := by
  obtain ⟨-, -, h3, -, h5, -, -⟩ := h
  simp only [TraceFoot.End, h3, h5]

theorem traceFoot_offset_ge (E : Engine α) (c : AFpsIkCharacter α) (W : World α)
    (SocketName : FName) (o : α) (r : FRotator α) (dt : α)
    (h : ∀ Hit, LineTraceSingleByChannel W (TraceFoot.Start W SocketName)
        (TraceFoot.End c W SocketName) = some Hit →
      0 ≤ E.Size (Hit.Location.sub (TraceFoot.End c W SocketName))) :
    min 0 (c.m_AdjustOffset - c.m_TraceDistance) ≤ (TraceFoot E c W SocketName o r dt).1 := by
  cases hT : LineTraceSingleByChannel W (TraceFoot.Start W SocketName)
      (TraceFoot.End c W SocketName) with
  | none =>
    rw [traceFoot_of_none E c W SocketName o r dt hT]
    exact min_le_left _ _
  | some Hit =>
    rw [traceFoot_of_some E c W SocketName o r dt Hit hT, lineTrace_traceEnd W _ _ Hit hT]
    have := h Hit hT
    simp only
    exact le_trans (min_le_right _ _) (by linarith)

theorem overshootFree_mem_Icc {F : α → α → α → α → α} {dt s : α} (hF : OvershootFree F dt s)
    {lo hi cur tgt : α} (hc1 : lo ≤ cur) (hc2 : cur ≤ hi) (ht1 : lo ≤ tgt) (ht2 : tgt ≤ hi) :
    lo ≤ F cur tgt dt s ∧ F cur tgt dt s ≤ hi :=
  ⟨le_trans (le_min hc1 ht1) (hF cur tgt).1, le_trans (hF cur tgt).2 (max_le hc2 ht2)⟩

/-- One open-gate update keeps the hip offset in `[-53, 0]` and the capsule
half-height in `[139/2, 96]`, for the default tunings and probes on the segment. -/
theorem updateIK_range (E : Engine α) (c : AFpsIkCharacter α) (W : World α) (dt : α)
    (hF : OvershootFree E.FInterpTo dt c.m_HipInterpSpeed)
    (hT : c.m_TraceDistance = 55) (hA : c.m_AdjustOffset = 2) (hB : c.m_CapsuleHalfHeight = 96)
    (hW : ProbesOnSegment E c W)
    (h1 : -53 ≤ c.m_HipOffset) (h2 : c.m_HipOffset ≤ 0)
    (h3 : 139 / 2 ≤ c.CapsuleHalfHeight) (h4 : c.CapsuleHalfHeight ≤ 96) :
    (-53 ≤ (UpdateIK E c W dt).m_HipOffset ∧ (UpdateIK E c W dt).m_HipOffset ≤ 0) ∧
      139 / 2 ≤ (UpdateIK E c W dt).CapsuleHalfHeight ∧
      (UpdateIK E c W dt).CapsuleHalfHeight ≤ 96 := by
  have hl : -53 ≤ (UpdateIK.Feet E c W dt).m_LeftFootOffset := by
    rw [feet_leftOffset]
    have := traceFoot_offset_ge E c W c.m_LeftFootSocket c.m_LeftFootOffset
      c.m_LeftFootRotation dt (fun Hit hH => (hW _ (Or.inl rfl) Hit hH).1)
    rw [hT, hA] at this
    refine le_trans ?_ this
    rw [min_eq_right (by norm_num)]
    norm_num
  have hr : -53 ≤ (UpdateIK.Feet E c W dt).m_RightFootOffset := by
    rw [feet_rightOffset]
    have := traceFoot_offset_ge E c W c.m_RightFootSocket c.m_RightFootOffset
      c.m_RightFootRotation dt (fun Hit hH => (hW _ (Or.inr rfl) Hit hH).1)
    rw [hT, hA] at this
    refine le_trans ?_ this
    rw [min_eq_right (by norm_num)]
    norm_num
  have hn1 : -53 ≤ UpdateHip.NewOffset (UpdateIK.Feet E c W dt) := by
    rw [newOffset_eq_min]
    exact le_min (le_min hl hr) (by norm_num)
  have hn2 := newOffset_nonpos (UpdateIK.Feet E c W dt)
  have hhip := overshootFree_mem_Icc hF h1 h2 hn1 hn2
  rw [← updateIK_hipOffset] at hhip
  refine ⟨hhip, ?_⟩
  have hcapT : (UpdateIK E c W dt).CapsuleHalfHeight =
      E.FInterpTo c.CapsuleHalfHeight
        (c.m_CapsuleHalfHeight - |(UpdateIK E c W dt).m_HipOffset| / 2) dt
        c.m_HipInterpSpeed := rfl
  rw [hcapT, hB]
  have habs : |(UpdateIK E c W dt).m_HipOffset| = -(UpdateIK E c W dt).m_HipOffset :=
    abs_of_nonpos hhip.2
  rw [habs]
  apply overshootFree_mem_Icc hF h3 h4
  · linarith [hhip.1]
  · linarith [hhip.2]

theorem probesOnSegment_sameTunings (E : Engine α) {c c' : AFpsIkCharacter α}
    (h : SameTunings c c') (W : World α) (hW : ProbesOnSegment E c W) :
    ProbesOnSegment E c' W := by
  intro SocketName hS Hit hHit
  have hEnd := traceEnd_sameTunings h W SocketName
  obtain ⟨-, -, h3, -, h5, h6, h7⟩ := h
  rw [hEnd] at hHit ⊢
  rw [h6, h7] at hS
  rw [h3, h5]
  exact hW SocketName hS Hit hHit

theorem tick_range (E : Engine α) (c : AFpsIkCharacter α) (W : World α) (dt : α)
    (hF : OvershootFree E.FInterpTo dt c.m_HipInterpSpeed)
    (hT : c.m_TraceDistance = 55) (hA : c.m_AdjustOffset = 2) (hB : c.m_CapsuleHalfHeight = 96)
    (hW : ProbesOnSegment E c W)
    (h1 : -53 ≤ c.m_HipOffset) (h2 : c.m_HipOffset ≤ 0)
    (h3 : 139 / 2 ≤ c.CapsuleHalfHeight) (h4 : c.CapsuleHalfHeight ≤ 96) :
    (-53 ≤ (Tick E c W dt).m_HipOffset ∧ (Tick E c W dt).m_HipOffset ≤ 0) ∧
      139 / 2 ≤ (Tick E c W dt).CapsuleHalfHeight ∧ (Tick E c W dt).CapsuleHalfHeight ≤ 96 := by
  unfold Tick
  split_ifs
  · exact updateIK_range E c W dt hF hT hA hB hW h1 h2 h3 h4
  · exact ⟨⟨h1, h2⟩, h3, h4⟩

theorem runTicks_range (E : Engine α) (c0 : AFpsIkCharacter α)
    (hT : c0.m_TraceDistance = 55) (hA : c0.m_AdjustOffset = 2)
    (hB : c0.m_CapsuleHalfHeight = 96) (ticks : List (World α × α)) :
    ∀ c : AFpsIkCharacter α, SameTunings c0 c →
      (∀ t ∈ ticks, OvershootFree E.FInterpTo t.2 c0.m_HipInterpSpeed) →
      (∀ t ∈ ticks, ProbesOnSegment E c0 t.1) →
      -53 ≤ c.m_HipOffset → c.m_HipOffset ≤ 0 →
      139 / 2 ≤ c.CapsuleHalfHeight → c.CapsuleHalfHeight ≤ 96 →
      139 / 2 ≤ (runTicks E c ticks).CapsuleHalfHeight ∧
        (runTicks E c ticks).CapsuleHalfHeight ≤ 96 := by
  induction ticks with
  | nil => intro c _ _ _ _ _ h3 h4; exact ⟨h3, h4⟩
  | cons t ts ih =>
    intro c hc hF hW h1 h2 h3 h4
    simp only [runTicks]
    have hFt : OvershootFree E.FInterpTo t.2 c.m_HipInterpSpeed := by
      rw [hc.2.1]
      exact hF t (List.mem_cons_self _ _)
    have hWt : ProbesOnSegment E c t.1 :=
      probesOnSegment_sameTunings E hc t.1 (hW t (List.mem_cons_self _ _))
    obtain ⟨⟨k1, k2⟩, k3, k4⟩ := tick_range E c t.1 t.2 hFt (hc.2.2.1.trans hT)
      (hc.2.2.2.1.trans hA) (hc.2.2.2.2.1.trans hB) hWt h1 h2 h3 h4
    exact ih _ (sameTunings_trans hc (tick_sameTunings E c t.1 t.2))
      (fun u hu => hF u (List.mem_cons_of_mem _ hu))
      (fun u hu => hW u (List.mem_cons_of_mem _ hu)) k1 k2 k3 k4

theorem expInterpTo_real_overshootFree (dt s : ℝ) (hdt : 0 ≤ dt) (hs : 0 < s) :
    OvershootFree (expInterpTo Real.exp) dt s := by
  intro cur tgt
  unfold expInterpTo
  have he0 : 0 < Real.exp (-(s * dt)) := Real.exp_pos _
  have he1 : Real.exp (-(s * dt)) ≤ 1 := by
    rw [Real.exp_le_one_iff]
    have := mul_nonneg hs.le hdt
    linarith
  generalize Real.exp (-(s * dt)) = e at he0 he1
  rcases le_total cur tgt with h | h
  · rw [min_eq_left h, max_eq_right h]
    constructor
    · nlinarith
    · nlinarith
  · rw [min_eq_right h, max_eq_left h]
    constructor
    · nlinarith
    · nlinarith

theorem probesOnSegment_standing (exp arctan : ℝ → ℝ) (pi : ℝ) (L R : Option (ℝ × FVector ℝ))
    (hL : ∀ p ∈ L, 0 ≤ p.1 ∧ p.1 ≤ 151) (hR : ∀ p ∈ R, 0 ≤ p.1 ∧ p.1 ≤ 151) :
    ProbesOnSegment (specEngine Real.sqrt exp arctan pi) AFpsIkCharacter.ctor
      (World.standing L R) := by
  intro SocketName hS Hit hHit
  have hsum : (AFpsIkCharacter.ctor : AFpsIkCharacter ℝ).m_CapsuleHalfHeight +
      (AFpsIkCharacter.ctor : AFpsIkCharacter ℝ).m_TraceDistance = 151 := by
    show (96 : ℝ) + 55 = 151
    norm_num
  rw [hsum]
  rcases hS with hS | hS
  · have hS' : SocketName = "foot_lSocket" := hS
    subst hS'
    rw [lineTrace_standing_left] at hHit
    cases L with
    | none => simp at hHit
    | some p =>
      simp only [Option.map_some', Option.some.injEq] at hHit
      have hp := hL p rfl
      rw [← hHit, traceEnd_standing_left, real_size_above exp arctan pi _ _ _ _ hp.1]
      exact hp
  · have hS' : SocketName = "foot_rSocket" := hS
    subst hS'
    rw [lineTrace_standing_right] at hHit
    cases R with
    | none => simp at hHit
    | some p =>
      simp only [Option.map_some', Option.some.injEq] at hHit
      have hp := hR p rfl
      rw [← hHit, traceEnd_standing_right, real_size_above exp arctan pi _ _ _ _ hp.1]
      exact hp

end HipFacts

/-! ## Convergence of repeated interpolation -/

section Convergence

variable {α : Type} [LinearOrderedField α]

theorem convergesTo_const (T : α) : ConvergesTo (fun _ => T) T := by
  intro ε hε
  exact ⟨0, fun n _ => by simpa using hε⟩

theorem convergesTo_of_dist_le {x y : ℕ → α} {X Y : α}
    (h : ∀ n, |y n - Y| ≤ |x (n + 1) - X|) (hx : ConvergesTo x X) : ConvergesTo y Y := by
  intro ε hε
  obtain ⟨N, hN⟩ := hx ε hε
  exact ⟨N, fun n hn => lt_of_le_of_lt (h n) (hN (n + 1) (Nat.le_succ_of_le hn))⟩

/-- A sequence that contracts toward a moving target with factor `ρ < 1` converges
to the limit of the target. -/
theorem convergesTo_of_contracting [Archimedean α] {ρ : α} (hρ0 : 0 ≤ ρ) (hρ1 : ρ < 1)
    {x t : ℕ → α} {T : α} (hstep : ∀ n, |x (n + 1) - t n| ≤ ρ * |x n - t n|)
    (ht : ConvergesTo t T) : ConvergesTo x T := by
  intro ε hε
  have hδ : 0 < ε * (1 - ρ) / 4 := by
    have : 0 < 1 - ρ := by linarith
    positivity
  obtain ⟨N1, hN1⟩ := ht (ε * (1 - ρ) / 4) hδ
  have hrec : ∀ n, N1 ≤ n → |x (n + 1) - T| ≤ ρ * |x n - T| + ε * (1 - ρ) / 2 := by
    intro n hn
    have h1 := hstep n
    have h2 := hN1 n hn
    have h3 : |x (n + 1) - T| ≤ |x (n + 1) - t n| + |t n - T| := by
      have := abs_add (x (n + 1) - t n) (t n - T)
      simpa using this
    have h4 : |x n - t n| ≤ |x n - T| + |t n - T| := by
      have := abs_add (x n - T) (T - t n)
      rw [abs_sub_comm T (t n)] at this
      simpa using this
    have h5 : ρ * |x n - t n| ≤ ρ * (|x n - T| + |t n - T|) :=
      mul_le_mul_of_nonneg_left h4 hρ0
    have h6 : ρ * |t n - T| ≤ |t n - T| := by
      have := abs_nonneg (t n - T)
      nlinarith
    nlinarith
  have hpow : ∀ k, |x (N1 + k) - T| ≤ ε / 2 + ρ ^ k * |x N1 - T| := by
    intro k
    induction k with
    | zero =>
      have : 0 < ε / 2 := by positivity
      simp only [Nat.add_zero, pow_zero, one_mul]
      linarith
    | succ k ih =>
      have h1 := hrec (N1 + k) (Nat.le_add_right _ _)
      have h2 : ρ * |x (N1 + k) - T| ≤ ρ * (ε / 2 + ρ ^ k * |x N1 - T|) :=
        mul_le_mul_of_nonneg_left ih hρ0
      have h3 : N1 + (k + 1) = N1 + k + 1 := rfl
      rw [h3, pow_succ]
      nlinarith
  have hA : 0 < |x N1 - T| + 1 := by
    have := abs_nonneg (x N1 - T)
    linarith
  obtain ⟨K, hK⟩ := exists_pow_lt_of_lt_one (div_pos (half_pos hε) hA) hρ1
  refine ⟨N1 + K, fun n hn => ?_⟩
  obtain ⟨k, rfl⟩ : ∃ k, n = N1 + k := ⟨n - N1, by omega⟩
  have hkK : K ≤ k := by omega
  have hle : ρ ^ k ≤ ρ ^ K := pow_le_pow_of_le_one hρ0 hρ1.le hkK
  have hKa : ρ ^ K * |x N1 - T| < ε / 2 := by
    have h0 := abs_nonneg (x N1 - T)
    have h1 : ρ ^ K * (|x N1 - T| + 1) < ε / 2 := by
      rwa [lt_div_iff₀ hA] at hK
    have h2 : 0 ≤ ρ ^ K := pow_nonneg hρ0 K
    nlinarith
  have hka : ρ ^ k * |x N1 - T| ≤ ρ ^ K * |x N1 - T| :=
    mul_le_mul_of_nonneg_right hle (abs_nonneg _)
  have := hpow k
  linarith

theorem interpIter_between {F : α → α → α → α → α} {dt sp : α} (hF : OvershootFree F dt sp)
    (x0 T : α) (k : ℕ) :
    min x0 T ≤ interpIter F T dt sp k x0 ∧ interpIter F T dt sp k x0 ≤ max x0 T := by
  induction k with
  | zero => exact ⟨min_le_left _ _, le_max_left _ _⟩
  | succ k ih =>
    simp only [interpIter]
    exact overshootFree_mem_Icc hF ih.1 ih.2 (min_le_right _ _) (le_max_right _ _)

theorem interpIter_dist_le {F : α → α → α → α → α} {dt sp ρ : α} (hρ1 : ρ < 1)
    (hF : ∀ cur tgt : α, |F cur tgt dt sp - tgt| ≤ ρ * |cur - tgt|) (x0 T : α) (k : ℕ) :
    |interpIter F T dt sp (k + 1) x0 - T| ≤ |interpIter F T dt sp k x0 - T| := by
  simp only [interpIter]
  have h1 := hF (interpIter F T dt sp k x0) T
  have h2 := abs_nonneg (interpIter F T dt sp k x0 - T)
  nlinarith

theorem interpIter_convergesTo [Archimedean α] {F : α → α → α → α → α} {dt sp : α}
    (hF : Contracting F dt sp) (x0 T : α) :
    ConvergesTo (fun k => interpIter F T dt sp k x0) T := by
  obtain ⟨ρ, hρ0, hρ1, hstep⟩ := hF
  exact convergesTo_of_contracting hρ0 hρ1 (t := fun _ => T)
    (fun n => hstep (interpIter F T dt sp n x0) T) (convergesTo_const T)

theorem expInterpTo_real_sub (cur tgt dt sp : ℝ) :
    expInterpTo Real.exp cur tgt dt sp - tgt = (cur - tgt) * Real.exp (-(sp * dt)) := by
  unfold expInterpTo
  ring

theorem expInterpTo_real_half (cur tgt dt sp : ℝ) :
    expInterpTo Real.exp (expInterpTo Real.exp cur tgt (dt / 2) sp) tgt (dt / 2) sp =
      expInterpTo Real.exp cur tgt dt sp := by
  have h : Real.exp (-(sp * dt)) =
      Real.exp (-(sp * (dt / 2))) * Real.exp (-(sp * (dt / 2))) := by
    rw [← Real.exp_add]
    congr 1
    ring
  unfold expInterpTo
  rw [h]
  ring

theorem expInterpTo_real_contracting (dt sp : ℝ) (hdt : 0 < dt) (hs : 0 < sp) :
    Contracting (expInterpTo Real.exp) dt sp := by
  refine ⟨Real.exp (-(sp * dt)), (Real.exp_pos _).le, ?_, ?_⟩
  · rw [Real.exp_lt_one_iff]
    have := mul_pos hs hdt
    linarith
  · intro cur tgt
    rw [expInterpTo_real_sub, abs_mul, abs_of_pos (Real.exp_pos _), mul_comm]

theorem real_atan2_sin_cos (θ : ℝ) (h1 : -(Real.pi / 2) < θ) (h2 : θ < Real.pi / 2) :
    atan2Of Real.arctan Real.pi (Real.sin θ) (Real.cos θ) = θ := by
  have hc : 0 < Real.cos θ := Real.cos_pos_of_mem_Ioo ⟨h1, h2⟩
  unfold atan2Of
  rw [if_pos hc, ← Real.tan_eq_sin_div_cos, Real.arctan_tan h1 h2]

theorem real_atan2_zero_pos (x : ℝ) (hx : 0 < x) :
    atan2Of Real.arctan Real.pi 0 x = 0 := by
  unfold atan2Of
  rw [if_pos hx, zero_div, Real.arctan_zero]

theorem real_newRotation_tilt (Hit : FHitResult ℝ) (t : ℝ) (h1 : -90 < t) (h2 : t < 90)
    (hn : Hit.Normal = ⟨Real.sin (t * (Real.pi / 180)), 0, Real.cos (t * (Real.pi / 180))⟩) :
    TraceFoot.NewRotation (specEngine Real.sqrt Real.exp Real.arctan Real.pi) Hit =
      ⟨-t, 0, 0⟩ := by
  have hpi : 0 < Real.pi := Real.pi_pos
  have k1 : -(Real.pi / 2) < t * (Real.pi / 180) := by nlinarith
  have k2 : t * (Real.pi / 180) < Real.pi / 2 := by nlinarith
  have hc : 0 < Real.cos (t * (Real.pi / 180)) := Real.cos_pos_of_mem_Ioo ⟨k1, k2⟩
  unfold TraceFoot.NewRotation
  rw [hn]
  show FRotator.mk
      (-(atan2Of Real.arctan Real.pi (Real.sin (t * (Real.pi / 180)))
        (Real.cos (t * (Real.pi / 180))) * (180 / Real.pi))) 0
      (atan2Of Real.arctan Real.pi 0 (Real.cos (t * (Real.pi / 180))) * (180 / Real.pi)) =
    ⟨-t, 0, 0⟩
  rw [real_atan2_sin_cos _ k1 k2, real_atan2_zero_pos _ hc]
  congr 1
  · field_simp
  · ring

end Convergence

/-! ## A constant world: the steady state -/

section Steady

variable {α : Type} [LinearOrderedField α]

theorem runTicks_append (E : Engine α) (l1 l2 : List (World α × α)) :
    ∀ c : AFpsIkCharacter α, runTicks E c (l1 ++ l2) = runTicks E (runTicks E c l1) l2 := by
  induction l1 with
  | nil => intro c; rfl
  | cons t ts ih => intro c; simp only [List.cons_append, runTicks]; exact ih _

theorem runTicks_replicate_succ (E : Engine α) (c : AFpsIkCharacter α) (W : World α) (dt : α)
    (n : ℕ) :
    runTicks E c (List.replicate (n + 1) (W, dt)) =
      Tick E (runTicks E c (List.replicate n (W, dt))) W dt := by
  rw [List.replicate_succ', runTicks_append]
  rfl

theorem contracting_fixed {F : α → α → α → α → α} {dt sp : α} (hF : Contracting F dt sp)
    (t : α) : F t t dt sp = t := by
  obtain ⟨ρ, -, -, h⟩ := hF
  have := h t t
  rw [sub_self, abs_zero, mul_zero] at this
  have h0 := abs_nonneg (F t t dt sp - t)
  have h1 : |F t t dt sp - t| = 0 := le_antisymm this h0
  exact sub_eq_zero.mp (abs_eq_zero.mp h1)

theorem rcontracting_fixed {R : FRotator α → FRotator α → α → α → FRotator α} {dt sp : α}
    (hR : RContracting R dt sp) (t : FRotator α) : R t t dt sp = t := by
  obtain ⟨ρ, -, -, h⟩ := hR
  obtain ⟨h1, h2, h3⟩ := h t t
  rw [sub_self, abs_zero, mul_zero] at h1 h2 h3
  have e1 : (R t t dt sp).Pitch = t.Pitch :=
    sub_eq_zero.mp (abs_eq_zero.mp (le_antisymm h1 (abs_nonneg _)))
  have e2 : (R t t dt sp).Yaw = t.Yaw :=
    sub_eq_zero.mp (abs_eq_zero.mp (le_antisymm h2 (abs_nonneg _)))
  have e3 : (R t t dt sp).Roll = t.Roll :=
    sub_eq_zero.mp (abs_eq_zero.mp (le_antisymm h3 (abs_nonneg _)))
  cases hr : R t t dt sp with
  | mk p y r =>
    rw [hr] at e1 e2 e3
    cases t
    simp only at e1 e2 e3
    rw [e1, e2, e3]

/-- What one open-gate update computes from a state `c'` with the tunings of `c`,
when both probes hit as in the steady state of `c`. -/
theorem updateIK_steady (E : Engine α) (c c' : AFpsIkCharacter α) (W : World α) (dt : α)
    (HitL HitR : FHitResult α) (hc : SameTunings c c')
    (hL : LineTraceSingleByChannel W (TraceFoot.Start W c.m_LeftFootSocket)
      (TraceFoot.End c W c.m_LeftFootSocket) = some HitL)
    (hR : LineTraceSingleByChannel W (TraceFoot.Start W c.m_RightFootSocket)
      (TraceFoot.End c W c.m_RightFootSocket) = some HitR) :
    (UpdateIK E c' W dt).m_LeftFootOffset = (SteadyState E c HitL HitR).m_LeftFootOffset ∧
      (UpdateIK E c' W dt).m_RightFootOffset = (SteadyState E c HitL HitR).m_RightFootOffset ∧
      (UpdateIK E c' W dt).m_LeftFootRotation =
        E.RInterpTo c'.m_LeftFootRotation (TraceFoot.NewRotation E HitL) dt
          c.m_FootInterpSpeed ∧
      (UpdateIK E c' W dt).m_RightFootRotation =
        E.RInterpTo c'.m_RightFootRotation (TraceFoot.NewRotation E HitR) dt
          c.m_FootInterpSpeed ∧
      (UpdateIK E c' W dt).m_HipOffset =
        E.FInterpTo c'.m_HipOffset (SteadyState E c HitL HitR).m_HipOffset dt
          c.m_HipInterpSpeed ∧
      (UpdateIK E c' W dt).CapsuleHalfHeight =
        E.FInterpTo c'.CapsuleHalfHeight
          (c.m_CapsuleHalfHeight - |(UpdateIK E c' W dt).m_HipOffset| / 2) dt
          c.m_HipInterpSpeed ∧
      (UpdateIK E c' W dt).m_LeftEffectorLocation =
        E.FInterpTo c'.m_LeftEffectorLocation
          ((SteadyState E c HitL HitR).m_LeftFootOffset - (UpdateIK E c' W dt).m_HipOffset) dt
          c.m_FootInterpSpeed ∧
      (UpdateIK E c' W dt).m_RightEffectorLocation =
        E.FInterpTo c'.m_RightEffectorLocation
          ((SteadyState E c HitL HitR).m_RightFootOffset - (UpdateIK E c' W dt).m_HipOffset) dt
          c.m_FootInterpSpeed := by
  have hEndL := traceEnd_sameTunings hc W c.m_LeftFootSocket
  have hEndR := traceEnd_sameTunings hc W c.m_RightFootSocket
  obtain ⟨t1, t2, t3, t4, t5, t6, t7⟩ := hc
  have hL' : LineTraceSingleByChannel W (TraceFoot.Start W c'.m_LeftFootSocket)
      (TraceFoot.End c' W c'.m_LeftFootSocket) = some HitL := by
    rw [t6, hEndL]; exact hL
  have hR' : LineTraceSingleByChannel W (TraceFoot.Start W c'.m_RightFootSocket)
      (TraceFoot.End c' W c'.m_RightFootSocket) = some HitR := by
    rw [t7, hEndR]; exact hR
  have fL := traceFoot_of_some E c' W c'.m_LeftFootSocket c'.m_LeftFootOffset
    c'.m_LeftFootRotation dt HitL hL'
  have fR := traceFoot_of_some E c' W c'.m_RightFootSocket c'.m_RightFootOffset
    c'.m_RightFootRotation dt HitR hR'
  have oL : (UpdateIK.Feet E c' W dt).m_LeftFootOffset =
      (SteadyState E c HitL HitR).m_LeftFootOffset := by
    rw [feet_leftOffset, fL, t3, t4]; rfl
  have oR : (UpdateIK.Feet E c' W dt).m_RightFootOffset =
      (SteadyState E c HitL HitR).m_RightFootOffset := by
    rw [feet_rightOffset, fR, t3, t4]; rfl
  have rL : (UpdateIK.Feet E c' W dt).m_LeftFootRotation =
      E.RInterpTo c'.m_LeftFootRotation (TraceFoot.NewRotation E HitL) dt
        c.m_FootInterpSpeed := by
    rw [feet_leftRotation, fL, t1]
  have rR : (UpdateIK.Feet E c' W dt).m_RightFootRotation =
      E.RInterpTo c'.m_RightFootRotation (TraceFoot.NewRotation E HitR) dt
        c.m_FootInterpSpeed := by
    rw [feet_rightRotation, fR, t1]
  have hN : UpdateHip.NewOffset (UpdateIK.Feet E c' W dt) =
      (SteadyState E c HitL HitR).m_HipOffset := by
    rw [newOffset_eq_min, oL, oR]; rfl
  have hH : (UpdateIK E c' W dt).m_HipOffset =
      E.FInterpTo c'.m_HipOffset (SteadyState E c HitL HitR).m_HipOffset dt
        c.m_HipInterpSpeed := by
    rw [updateIK_hipOffset, hN, t2]
  refine ⟨oL, oR, rL, rR, hH, ?_, ?_, ?_⟩
  · rw [← t5, ← t2]; rfl
  · rw [← oL, ← t1]; rfl
  · rw [← oR, ← t1]; rfl

/-- The members of the steady state are unchanged by an open-gate tick when the
steps are contracting. -/
theorem tick_steady_fixed (E : Engine α) (c c' : AFpsIkCharacter α) (W : World α) (dt : α)
    (HitL HitR : FHitResult α) (hc : SameTunings c c')
    (hgate : E.IsNearlyZero (E.Size W.Velocity) = true)
    (hL : LineTraceSingleByChannel W (TraceFoot.Start W c.m_LeftFootSocket)
      (TraceFoot.End c W c.m_LeftFootSocket) = some HitL)
    (hR : LineTraceSingleByChannel W (TraceFoot.Start W c.m_RightFootSocket)
      (TraceFoot.End c W c.m_RightFootSocket) = some HitR)
    (hHip : Contracting E.FInterpTo dt c.m_HipInterpSpeed)
    (hFoot : Contracting E.FInterpTo dt c.m_FootInterpSpeed)
    (hRot : RContracting E.RInterpTo dt c.m_FootInterpSpeed)
    (e1 : c'.m_HipOffset = (SteadyState E c HitL HitR).m_HipOffset)
    (e2 : c'.m_LeftEffectorLocation = (SteadyState E c HitL HitR).m_LeftEffectorLocation)
    (e3 : c'.m_RightEffectorLocation = (SteadyState E c HitL HitR).m_RightEffectorLocation)
    (e4 : c'.CapsuleHalfHeight = (SteadyState E c HitL HitR).CapsuleHalfHeight)
    (e5 : c'.m_LeftFootRotation = (SteadyState E c HitL HitR).m_LeftFootRotation)
    (e6 : c'.m_RightFootRotation = (SteadyState E c HitL HitR).m_RightFootRotation) :
    (Tick E c' W dt).m_HipOffset = c'.m_HipOffset ∧
      (Tick E c' W dt).m_LeftEffectorLocation = c'.m_LeftEffectorLocation ∧
      (Tick E c' W dt).m_RightEffectorLocation = c'.m_RightEffectorLocation ∧
      (Tick E c' W dt).CapsuleHalfHeight = c'.CapsuleHalfHeight ∧
      (Tick E c' W dt).m_LeftFootRotation = c'.m_LeftFootRotation ∧
      (Tick E c' W dt).m_RightFootRotation = c'.m_RightFootRotation := by
  obtain ⟨-, -, u3, u4, u5, u6, u7, u8⟩ := updateIK_steady E c c' W dt HitL HitR hc hL hR
  rw [tick_of_gate E c' W dt hgate]
  have k1 : (UpdateIK E c' W dt).m_HipOffset = c'.m_HipOffset := by
    rw [u5, e1]; exact contracting_fixed hHip _
  refine ⟨k1, ?_, ?_, ?_, ?_, ?_⟩
  · rw [u7, k1, e1, e2]
    exact contracting_fixed hFoot _
  · rw [u8, k1, e1, e3]
    exact contracting_fixed hFoot _
  · rw [u6, k1, e1, e4]
    exact contracting_fixed hHip _
  · rw [u3, e5]
    exact rcontracting_fixed hRot _
  · rw [u4, e6]
    exact rcontracting_fixed hRot _

/-- Under a constant world with both probes hitting and contracting steps, the
run of identical open-gate ticks converges to the steady state. -/
theorem runTicks_steady_converges [Archimedean α] (E : Engine α) (c : AFpsIkCharacter α)
    (W : World α) (dt : α) (HitL HitR : FHitResult α)
    (hgate : E.IsNearlyZero (E.Size W.Velocity) = true)
    (hL : LineTraceSingleByChannel W (TraceFoot.Start W c.m_LeftFootSocket)
      (TraceFoot.End c W c.m_LeftFootSocket) = some HitL)
    (hR : LineTraceSingleByChannel W (TraceFoot.Start W c.m_RightFootSocket)
      (TraceFoot.End c W c.m_RightFootSocket) = some HitR)
    (hHip : Contracting E.FInterpTo dt c.m_HipInterpSpeed)
    (hFoot : Contracting E.FInterpTo dt c.m_FootInterpSpeed)
    (hRot : RContracting E.RInterpTo dt c.m_FootInterpSpeed) :
    ConvergesTo (fun n => (runTicks E c (List.replicate n (W, dt))).m_HipOffset)
        (SteadyState E c HitL HitR).m_HipOffset ∧
      ConvergesTo (fun n => (runTicks E c (List.replicate n (W, dt))).m_LeftEffectorLocation)
        (SteadyState E c HitL HitR).m_LeftEffectorLocation ∧
      ConvergesTo (fun n => (runTicks E c (List.replicate n (W, dt))).m_RightEffectorLocation)
        (SteadyState E c HitL HitR).m_RightEffectorLocation ∧
      ConvergesTo (fun n => (runTicks E c (List.replicate n (W, dt))).CapsuleHalfHeight)
        (SteadyState E c HitL HitR).CapsuleHalfHeight ∧
      (ConvergesTo (fun n => (runTicks E c (List.replicate n (W, dt))).m_LeftFootRotation.Pitch)
          (SteadyState E c HitL HitR).m_LeftFootRotation.Pitch ∧
        ConvergesTo (fun n => (runTicks E c (List.replicate n (W, dt))).m_LeftFootRotation.Yaw)
          (SteadyState E c HitL HitR).m_LeftFootRotation.Yaw ∧
        ConvergesTo (fun n => (runTicks E c (List.replicate n (W, dt))).m_LeftFootRotation.Roll)
          (SteadyState E c HitL HitR).m_LeftFootRotation.Roll) ∧
      (ConvergesTo (fun n => (runTicks E c (List.replicate n (W, dt))).m_RightFootRotation.Pitch)
          (SteadyState E c HitL HitR).m_RightFootRotation.Pitch ∧
        ConvergesTo (fun n => (runTicks E c (List.replicate n (W, dt))).m_RightFootRotation.Yaw)
          (SteadyState E c HitL HitR).m_RightFootRotation.Yaw ∧
        ConvergesTo (fun n => (runTicks E c (List.replicate n (W, dt))).m_RightFootRotation.Roll)
          (SteadyState E c HitL HitR).m_RightFootRotation.Roll) := by
  have hs : ∀ n, runTicks E c (List.replicate (n + 1) (W, dt)) =
      UpdateIK E (runTicks E c (List.replicate n (W, dt))) W dt := by
    intro n
    rw [runTicks_replicate_succ, tick_of_gate _ _ _ _ hgate]
  have hU := fun n : ℕ => updateIK_steady E c (runTicks E c (List.replicate n (W, dt))) W dt
    HitL HitR (runTicks_sameTunings E _ c) hL hR
  obtain ⟨ρh, hh0, hh1, hhstep⟩ := hHip
  obtain ⟨ρf, hf0, hf1, hfstep⟩ := hFoot
  obtain ⟨ρr, hr0, hr1, hrstep⟩ := hRot
  have hip : ConvergesTo (fun n => (runTicks E c (List.replicate n (W, dt))).m_HipOffset)
      (SteadyState E c HitL HitR).m_HipOffset := by
    refine convergesTo_of_contracting hh0 hh1
      (t := fun _ => (SteadyState E c HitL HitR).m_HipOffset) (fun n => ?_) (convergesTo_const _)
    show |(runTicks E c (List.replicate (n + 1) (W, dt))).m_HipOffset - _| ≤ _
    rw [hs n, (hU n).2.2.2.2.1]
    exact hhstep _ _
  refine ⟨hip, ?_, ?_, ?_, ⟨?_, ?_, ?_⟩, ?_, ?_, ?_⟩
  · refine convergesTo_of_contracting hf0 hf1
      (t := fun n => (SteadyState E c HitL HitR).m_LeftFootOffset -
        (runTicks E c (List.replicate (n + 1) (W, dt))).m_HipOffset) (fun n => ?_) ?_
    · show |(runTicks E c (List.replicate (n + 1) (W, dt))).m_LeftEffectorLocation - _| ≤ _
      have h7 := (hU n).2.2.2.2.2.2.1
      rw [← hs n] at h7
      rw [h7]
      exact hfstep _ _
    · refine convergesTo_of_dist_le (fun n => ?_) hip
      show |(SteadyState E c HitL HitR).m_LeftFootOffset -
          (runTicks E c (List.replicate (n + 1) (W, dt))).m_HipOffset -
          ((SteadyState E c HitL HitR).m_LeftFootOffset -
            (SteadyState E c HitL HitR).m_HipOffset)| ≤ _
      rw [sub_sub_sub_cancel_left, abs_sub_comm]
  · refine convergesTo_of_contracting hf0 hf1
      (t := fun n => (SteadyState E c HitL HitR).m_RightFootOffset -
        (runTicks E c (List.replicate (n + 1) (W, dt))).m_HipOffset) (fun n => ?_) ?_
    · show |(runTicks E c (List.replicate (n + 1) (W, dt))).m_RightEffectorLocation - _| ≤ _
      have h8 := (hU n).2.2.2.2.2.2.2
      rw [← hs n] at h8
      rw [h8]
      exact hfstep _ _
    · refine convergesTo_of_dist_le (fun n => ?_) hip
      show |(SteadyState E c HitL HitR).m_RightFootOffset -
          (runTicks E c (List.replicate (n + 1) (W, dt))).m_HipOffset -
          ((SteadyState E c HitL HitR).m_RightFootOffset -
            (SteadyState E c HitL HitR).m_HipOffset)| ≤ _
      rw [sub_sub_sub_cancel_left, abs_sub_comm]
  · refine convergesTo_of_contracting hh0 hh1
      (t := fun n => c.m_CapsuleHalfHeight -
        |(runTicks E c (List.replicate (n + 1) (W, dt))).m_HipOffset| / 2) (fun n => ?_) ?_
    · show |(runTicks E c (List.replicate (n + 1) (W, dt))).CapsuleHalfHeight - _| ≤ _
      have h6 := (hU n).2.2.2.2.2.1
      rw [← hs n] at h6
      rw [h6]
      exact hhstep _ _
    · refine convergesTo_of_dist_le (fun n => ?_) hip
      show |c.m_CapsuleHalfHeight -
          |(runTicks E c (List.replicate (n + 1) (W, dt))).m_HipOffset| / 2 -
          (c.m_CapsuleHalfHeight - |(SteadyState E c HitL HitR).m_HipOffset| / 2)| ≤ _
      have h1 := abs_abs_sub_abs_le_abs_sub
        ((runTicks E c (List.replicate (n + 1) (W, dt))).m_HipOffset)
        ((SteadyState E c HitL HitR).m_HipOffset)
      have h2 := abs_nonneg (|(runTicks E c (List.replicate (n + 1) (W, dt))).m_HipOffset| -
        |(SteadyState E c HitL HitR).m_HipOffset|)
      have h3 : c.m_CapsuleHalfHeight -
          |(runTicks E c (List.replicate (n + 1) (W, dt))).m_HipOffset| / 2 -
          (c.m_CapsuleHalfHeight - |(SteadyState E c HitL HitR).m_HipOffset| / 2) =
          -((|(runTicks E c (List.replicate (n + 1) (W, dt))).m_HipOffset| -
            |(SteadyState E c HitL HitR).m_HipOffset|) / 2) := by ring
      rw [h3, abs_neg, abs_div, abs_two]
      linarith
  · refine convergesTo_of_contracting hr0 hr1
      (t := fun _ => (TraceFoot.NewRotation E HitL).Pitch) (fun n => ?_) (convergesTo_const _)
    show |(runTicks E c (List.replicate (n + 1) (W, dt))).m_LeftFootRotation.Pitch - _| ≤ _
    rw [hs n, (hU n).2.2.1]
    exact (hrstep _ _).1
  · refine convergesTo_of_contracting hr0 hr1
      (t := fun _ => (TraceFoot.NewRotation E HitL).Yaw) (fun n => ?_) (convergesTo_const _)
    show |(runTicks E c (List.replicate (n + 1) (W, dt))).m_LeftFootRotation.Yaw - _| ≤ _
    rw [hs n, (hU n).2.2.1]
    exact (hrstep _ _).2.1
  · refine convergesTo_of_contracting hr0 hr1
      (t := fun _ => (TraceFoot.NewRotation E HitL).Roll) (fun n => ?_) (convergesTo_const _)
    show |(runTicks E c (List.replicate (n + 1) (W, dt))).m_LeftFootRotation.Roll - _| ≤ _
    rw [hs n, (hU n).2.2.1]
    exact (hrstep _ _).2.2
  · refine convergesTo_of_contracting hr0 hr1
      (t := fun _ => (TraceFoot.NewRotation E HitR).Pitch) (fun n => ?_) (convergesTo_const _)
    show |(runTicks E c (List.replicate (n + 1) (W, dt))).m_RightFootRotation.Pitch - _| ≤ _
    rw [hs n, (hU n).2.2.2.1]
    exact (hrstep _ _).1
  · refine convergesTo_of_contracting hr0 hr1
      (t := fun _ => (TraceFoot.NewRotation E HitR).Yaw) (fun n => ?_) (convergesTo_const _)
    show |(runTicks E c (List.replicate (n + 1) (W, dt))).m_RightFootRotation.Yaw - _| ≤ _
    rw [hs n, (hU n).2.2.2.1]
    exact (hrstep _ _).2.1
  · refine convergesTo_of_contracting hr0 hr1
      (t := fun _ => (TraceFoot.NewRotation E HitR).Roll) (fun n => ?_) (convergesTo_const _)
    show |(runTicks E c (List.replicate (n + 1) (W, dt))).m_RightFootRotation.Roll - _| ≤ _
    rw [hs n, (hU n).2.2.2.1]
    exact (hrstep _ _).2.2

theorem real_specRInterpTo_contracting (sqrt arctan : ℝ → ℝ) (pi dt sp : ℝ) (hdt : 0 < dt)
    (hs : 0 < sp) : RContracting (specEngine sqrt Real.exp arctan pi).RInterpTo dt sp := by
  obtain ⟨ρ, h0, h1, h⟩ := expInterpTo_real_contracting dt sp hdt hs
  exact ⟨ρ, h0, h1, fun cur tgt => ⟨h _ _, h _ _, h _ _⟩⟩

theorem exp_decay_factor (dt sp : ℝ) (hs : 0 < sp) (hdt : 0 ≤ dt) :
    0 < Real.exp (-(sp * dt)) ∧ Real.exp (-(sp * dt)) ≤ 1 := by
  refine ⟨Real.exp_pos _, ?_⟩
  rw [Real.exp_le_one_iff]
  have := mul_nonneg hs.le hdt
  linarith

theorem expInterpTo_real_dist_le (cur tgt dt sp : ℝ) (hs : 0 < sp) (hdt : 0 ≤ dt) :
    |expInterpTo Real.exp cur tgt dt sp - tgt| ≤ |cur - tgt| := by
  obtain ⟨h0, h1⟩ := exp_decay_factor dt sp hs hdt
  rw [expInterpTo_real_sub, abs_mul, abs_of_pos h0]
  have := abs_nonneg (cur - tgt)
  nlinarith

theorem interpIter_exp_closed (x T δ sp : ℝ) (k : ℕ) :
    interpIter (expInterpTo Real.exp) T δ sp k x = T + (x - T) * Real.exp (-(sp * δ)) ^ k := by
  induction k with
  | zero => simp [interpIter]
  | succ k ih =>
    simp only [interpIter]
    rw [ih]
    unfold expInterpTo
    rw [pow_succ]
    ring

/-- `n + 1` equal sub-steps of `dt / (n + 1)` give the result of one step of `dt`. -/
theorem interpIter_exp_substeps (x T dt sp : ℝ) (n : ℕ) :
    interpIter (expInterpTo Real.exp) T (dt / (n + 1 : ℕ)) sp (n + 1) x =
      expInterpTo Real.exp x T dt sp := by
  rw [interpIter_exp_closed, ← Real.exp_nat_mul]
  have hn : ((n + 1 : ℕ) : ℝ) ≠ 0 := Nat.cast_ne_zero.mpr (Nat.succ_ne_zero n)
  have he : ((n + 1 : ℕ) : ℝ) * -(sp * (dt / ((n + 1 : ℕ) : ℝ))) = -(sp * dt) := by
    field_simp
    ring
  rw [he]
  rfl

theorem specRInterpTo_real_half (sqrt arctan : ℝ → ℝ) (pi : ℝ) (cur tgt : FRotator ℝ)
    (dt sp : ℝ) :
    (specEngine sqrt Real.exp arctan pi).RInterpTo
        ((specEngine sqrt Real.exp arctan pi).RInterpTo cur tgt (dt / 2) sp) tgt (dt / 2) sp =
      (specEngine sqrt Real.exp arctan pi).RInterpTo cur tgt dt sp := by
  show FRotator.mk _ _ _ = FRotator.mk _ _ _
  congr 1
  · exact expInterpTo_real_half _ _ _ _
  · exact expInterpTo_real_half _ _ _ _
  · exact expInterpTo_real_half _ _ _ _

end Steady

/-! ## The properties of the specification -/

section Claims

variable {α : Type} [LinearOrderedField α]

/-- C1 (hip clamp invariant, P1). For an engine whose `FInterpTo` never overshoots,
and a character whose hip offset is 0, the hip offset `m_HipOffset` is at most 0
after every tick of every sequence of ticks: each tick may see any world (any
outcome of either probe, hit or miss, with any hit location and normal, the speed
gate open or closed) and any `DeltaTime`. -/
theorem hip_offset_never_positive (E : Engine α)
    (hE : ∀ dt s : α, OvershootFree E.FInterpTo dt s) (c : AFpsIkCharacter α)
    (h0 : c.m_HipOffset = 0) (ticks : List (World α × α)) (n : ℕ) :
    (runTicks E c (ticks.take n)).m_HipOffset ≤ 0 :=
  runTicks_hipOffset_nonpos E (ticks.take n) c (fun t _ => hE t.2 c.m_HipInterpSpeed)
    (le_of_eq h0)

/-- The hypotheses of `hip_offset_never_positive` hold for the clamped-blend engine
over the reals and the constructed character, on a run of two ticks: a left hit
with a right miss at `DeltaTime = 1/60`, then two misses at `DeltaTime = -1`. -/
theorem hip_offset_never_positive_witness :
    (∀ dt s : ℝ, OvershootFree (clampedEngine Real.sqrt Real.arctan Real.pi).FInterpTo dt s) ∧
      (AFpsIkCharacter.ctor : AFpsIkCharacter ℝ).m_HipOffset = 0 ∧
      (runTicks (clampedEngine Real.sqrt Real.arctan Real.pi) AFpsIkCharacter.ctor
          ([(World.standing (some (45, ⟨0, 0, 1⟩)) none, 1 / 60),
            (World.standing none none, -1)].take 2)).m_HipOffset ≤ 0 :=
  ⟨fun dt s => clampedInterpTo_overshootFree dt s, rfl,
    hip_offset_never_positive _ (fun dt s => clampedInterpTo_overshootFree dt s) _ rfl _ 2⟩

/-- The hip clamp invariant for the exponential step of the spec: from the
constructed character, over every sequence of ticks whose `DeltaTime` is never
negative, the hip offset is at most 0 after every tick. -/
theorem hip_offset_never_positive_exponential (ticks : List (World ℝ × ℝ))
    (hdt : ∀ t ∈ ticks, 0 ≤ t.2) (n : ℕ) :
    (runTicks (specEngine Real.sqrt Real.exp Real.arctan Real.pi) AFpsIkCharacter.ctor
      (ticks.take n)).m_HipOffset ≤ 0 := by
  apply runTicks_hipOffset_nonpos
  · intro t ht
    exact expInterpTo_real_overshootFree t.2 _ (hdt t (List.mem_of_mem_take ht))
      (by show (0 : ℝ) < 7; norm_num)
  · exact le_refl (0 : ℝ)

/-- Two ticks with `DeltaTime` 1/60 and 0 satisfy the hypothesis of
`hip_offset_never_positive_exponential`. -/
theorem hip_offset_never_positive_exponential_witness :
    (∀ t ∈ [((World.standing (some ((45 : ℝ), ⟨0, 0, 1⟩)) none, 1 / 60) : World ℝ × ℝ),
        (World.standing none none, 0)], 0 ≤ t.2) ∧
      (runTicks (specEngine Real.sqrt Real.exp Real.arctan Real.pi) AFpsIkCharacter.ctor
        ([((World.standing (some ((45 : ℝ), ⟨0, 0, 1⟩)) none, 1 / 60) : World ℝ × ℝ),
          (World.standing none none, 0)].take 2)).m_HipOffset ≤ 0 := by
  have hdt : ∀ t ∈ [((World.standing (some ((45 : ℝ), ⟨0, 0, 1⟩)) none, 1 / 60) : World ℝ × ℝ),
      (World.standing none none, 0)], 0 ≤ t.2 := by
    intro t ht
    simp only [List.mem_cons, List.mem_singleton, List.not_mem_nil, or_false] at ht
    rcases ht with rfl | rfl
    · norm_num
    · norm_num
  exact ⟨hdt, hip_offset_never_positive_exponential _ hdt 2⟩

/-- C2 (probe miss handling, P2). When the line trace of a foot reports no hit,
`TraceFoot` returns offset exactly 0 and the rotation it was given, whatever the
prior offset, the prior rotation and `DeltaTime` are. -/
theorem probe_miss_zero_offset_same_rotation (E : Engine α) (c : AFpsIkCharacter α)
    (W : World α) (SocketName : FName) (OutOffset : α) (OutRotation : FRotator α)
    (DeltaTime : α)
    (hmiss : LineTraceSingleByChannel W (TraceFoot.Start W SocketName)
      (TraceFoot.End c W SocketName) = none) :
    (TraceFoot E c W SocketName OutOffset OutRotation DeltaTime).1 = 0 ∧
      (TraceFoot E c W SocketName OutOffset OutRotation DeltaTime).2 = OutRotation := by
  rw [traceFoot_of_none E c W SocketName OutOffset OutRotation DeltaTime hmiss]
  exact ⟨rfl, rfl⟩

/-- A missing left probe in the standing world: prior offset 5 and prior rotation
`(1, 2, 3)` give offset 0 and rotation `(1, 2, 3)`. -/
theorem probe_miss_zero_offset_same_rotation_witness :
    LineTraceSingleByChannel (World.standing (none : Option (ℝ × FVector ℝ)) none)
        (TraceFoot.Start (World.standing none none) "foot_lSocket")
        (TraceFoot.End AFpsIkCharacter.ctor (World.standing none none) "foot_lSocket") = none ∧
      (TraceFoot (specEngine Real.sqrt Real.exp Real.arctan Real.pi) AFpsIkCharacter.ctor
          (World.standing none none) "foot_lSocket" 5 ⟨1, 2, 3⟩ (1 / 60)).1 = 0 ∧
      (TraceFoot (specEngine Real.sqrt Real.exp Real.arctan Real.pi) AFpsIkCharacter.ctor
          (World.standing none none) "foot_lSocket" 5 ⟨1, 2, 3⟩ (1 / 60)).2 = ⟨1, 2, 3⟩ :=
  ⟨lineTrace_standing_left _ none none,
    probe_miss_zero_offset_same_rotation _ _ _ _ _ _ _ (lineTrace_standing_left _ none none)⟩

/-- C3 (hit offset formula). When the line trace of a foot hits, the offset
`TraceFoot` returns is the distance from the hit location to the bottom end of the
probe segment, minus `m_TraceDistance`, plus `m_AdjustOffset`; it is the same for
every prior offset. With the default tunings (55 and 2) a hit at distance 55 from
the bottom end gives offset 2 (Scenario A) and a hit at distance 45 gives -8
(Scenario B). -/
theorem hit_offset_formula (E : Engine α) (c : AFpsIkCharacter α) (W : World α)
    (SocketName : FName) (OutOffset : α) (OutRotation : FRotator α) (DeltaTime : α)
    (Hit : FHitResult α)
    (hhit : LineTraceSingleByChannel W (TraceFoot.Start W SocketName)
      (TraceFoot.End c W SocketName) = some Hit) :
    (TraceFoot E c W SocketName OutOffset OutRotation DeltaTime).1 =
        E.Size (Hit.Location.sub (TraceFoot.End c W SocketName)) - c.m_TraceDistance
          + c.m_AdjustOffset ∧
      (∀ o : α, (TraceFoot E c W SocketName o OutRotation DeltaTime).1 =
        (TraceFoot E c W SocketName OutOffset OutRotation DeltaTime).1) ∧
      (c.m_TraceDistance = 55 → c.m_AdjustOffset = 2 →
        (E.Size (Hit.Location.sub (TraceFoot.End c W SocketName)) = 55 →
          (TraceFoot E c W SocketName OutOffset OutRotation DeltaTime).1 = 2) ∧
        (E.Size (Hit.Location.sub (TraceFoot.End c W SocketName)) = 45 →
          (TraceFoot E c W SocketName OutOffset OutRotation DeltaTime).1 = -8)) := by
  have hEnd := lineTrace_traceEnd W _ _ Hit hhit
  have key : ∀ o : α, (TraceFoot E c W SocketName o OutRotation DeltaTime).1 =
      E.Size (Hit.Location.sub (TraceFoot.End c W SocketName)) - c.m_TraceDistance
        + c.m_AdjustOffset := by
    intro o
    rw [traceFoot_of_some E c W SocketName o OutRotation DeltaTime Hit hhit, hEnd]
  refine ⟨key OutOffset, fun o => by rw [key o, key OutOffset], ?_⟩
  intro hT hA
  rw [key OutOffset, hT, hA]
  constructor
  · intro h; rw [h]; norm_num
  · intro h; rw [h]; norm_num

/-- The hypothesis of `hit_offset_formula` holds for the left foot of the
constructed character in the standing world with a hit 55 above the bottom end of
the probe; the offset there is 2. -/
theorem hit_offset_formula_witness :
    LineTraceSingleByChannel (World.standing (some ((55 : ℝ), ⟨0, 0, 1⟩)) none)
        (TraceFoot.Start (World.standing (some ((55 : ℝ), ⟨0, 0, 1⟩)) none) "foot_lSocket")
        (TraceFoot.End AFpsIkCharacter.ctor (World.standing (some ((55 : ℝ), ⟨0, 0, 1⟩)) none)
          "foot_lSocket") =
        some ⟨⟨0, -10, 0 - 96 - 55 + 55⟩, ⟨0, 0, 1⟩, ⟨0, -10, 0⟩, ⟨0, -10, 0 - 96 - 55⟩⟩ ∧
      (TraceFoot (specEngine Real.sqrt Real.exp Real.arctan Real.pi) AFpsIkCharacter.ctor
        (World.standing (some ((55 : ℝ), ⟨0, 0, 1⟩)) none) "foot_lSocket" 7 ⟨0, 0, 0⟩
        (1 / 60)).1 = 2 := by
  have h := lineTrace_standing_left (AFpsIkCharacter.ctor : AFpsIkCharacter ℝ)
    (some ((55 : ℝ), ⟨0, 0, 1⟩)) none
  have hs : (specEngine Real.sqrt Real.exp Real.arctan Real.pi).Size
      (FVector.sub (⟨0, -10, 0 - 96 - 55 + 55⟩ : FVector ℝ)
        (TraceFoot.End AFpsIkCharacter.ctor (World.standing (some ((55 : ℝ), ⟨0, 0, 1⟩)) none)
          "foot_lSocket")) = 55 := by
    rw [traceEnd_standing_left]
    exact real_size_above Real.exp Real.arctan Real.pi 0 (-10) (0 - 96 - 55) 55 (by norm_num)
  exact ⟨h, ((hit_offset_formula (specEngine Real.sqrt Real.exp Real.arctan Real.pi)
    AFpsIkCharacter.ctor _ "foot_lSocket" 7 ⟨0, 0, 0⟩ (1 / 60) _ h).2.2 rfl rfl).1 hs⟩

/-- C4 (Scenario B, amended). With the default trace distance 55 and bias 2, in a
tick whose speed gate is open, whose left probe hits 10 units nearer than the trace
distance (any normal) and whose right probe misses: the left foot offset is -8,
the right foot offset is 0, and the value the hip offset is interpolated toward is
`min (-8, 0, 0) = -8`. The value the capsule half-height is interpolated toward in
that tick is `m_CapsuleHalfHeight - |h| / 2`, where `h` is the hip offset that
the same tick has just interpolated; it is `m_CapsuleHalfHeight - 4` when `h = -8`. -/
theorem scenarioB_targets (E : Engine α) (c : AFpsIkCharacter α) (W : World α) (dt : α)
    (HitL : FHitResult α) (hT : c.m_TraceDistance = 55) (hA : c.m_AdjustOffset = 2)
    (hgate : E.IsNearlyZero (E.Size W.Velocity) = true)
    (hL : LineTraceSingleByChannel W (TraceFoot.Start W c.m_LeftFootSocket)
      (TraceFoot.End c W c.m_LeftFootSocket) = some HitL)
    (hd : E.Size (HitL.Location.sub (TraceFoot.End c W c.m_LeftFootSocket)) =
      c.m_TraceDistance - 10)
    (hR : LineTraceSingleByChannel W (TraceFoot.Start W c.m_RightFootSocket)
      (TraceFoot.End c W c.m_RightFootSocket) = none) :
    (Tick E c W dt).m_LeftFootOffset = -8 ∧
      (Tick E c W dt).m_RightFootOffset = 0 ∧
      UpdateHip.NewOffset (UpdateIK.Feet E c W dt) = -8 ∧
      (Tick E c W dt).m_HipOffset = E.FInterpTo c.m_HipOffset (-8) dt c.m_HipInterpSpeed ∧
      UpdateHip.NewCapsuleHalfHeight E (UpdateIK.Feet E c W dt) dt =
        c.m_CapsuleHalfHeight - |(Tick E c W dt).m_HipOffset| / 2 ∧
      (Tick E c W dt).CapsuleHalfHeight =
        E.FInterpTo c.CapsuleHalfHeight (c.m_CapsuleHalfHeight - |(Tick E c W dt).m_HipOffset| / 2)
          dt c.m_HipInterpSpeed ∧
      ((Tick E c W dt).m_HipOffset = -8 →
        UpdateHip.NewCapsuleHalfHeight E (UpdateIK.Feet E c W dt) dt =
          c.m_CapsuleHalfHeight - 4) := by
  obtain ⟨h1, h2, h3⟩ := feet_scenarioB E c W dt HitL hT hA hL hd hR
  have hhip : (Tick E c W dt).m_HipOffset =
      E.FInterpTo c.m_HipOffset (-8) dt c.m_HipInterpSpeed := by
    rw [tick_of_gate E c W dt hgate, updateIK_hipOffset, h3]
  have hcap : UpdateHip.NewCapsuleHalfHeight E (UpdateIK.Feet E c W dt) dt =
      c.m_CapsuleHalfHeight - |(Tick E c W dt).m_HipOffset| / 2 := by
    rw [tick_of_gate E c W dt hgate]
    rfl
  refine ⟨?_, ?_, h3, hhip, hcap, ?_, ?_⟩
  · rw [tick_of_gate E c W dt hgate]; exact h1
  · rw [tick_of_gate E c W dt hgate]; exact h2
  · rw [← hcap, tick_of_gate E c W dt hgate]; rfl
  · intro h8
    rw [hcap, h8]
    norm_num

/-- Scenario B for the constructed character over the reals, with the exponential
step of the spec and `DeltaTime = 1/60`: the hypotheses of `scenarioB_targets`
hold in the standing world with a left hit 45 above the probe's bottom end. -/
theorem scenarioB_targets_witness :
    (AFpsIkCharacter.ctor : AFpsIkCharacter ℝ).m_TraceDistance = 55 ∧
      (AFpsIkCharacter.ctor : AFpsIkCharacter ℝ).m_AdjustOffset = 2 ∧
      (specEngine Real.sqrt Real.exp Real.arctan Real.pi).IsNearlyZero
        ((specEngine Real.sqrt Real.exp Real.arctan Real.pi).Size
          (World.standing (some ((45 : ℝ), ⟨0, 0, 1⟩)) none).Velocity) = true ∧
      (Tick (specEngine Real.sqrt Real.exp Real.arctan Real.pi) AFpsIkCharacter.ctor
        (World.standing (some ((45 : ℝ), ⟨0, 0, 1⟩)) none) (1 / 60)).m_LeftFootOffset = -8 ∧
      UpdateHip.NewOffset (UpdateIK.Feet (specEngine Real.sqrt Real.exp Real.arctan Real.pi)
        AFpsIkCharacter.ctor (World.standing (some ((45 : ℝ), ⟨0, 0, 1⟩)) none) (1 / 60)) = -8 := by
  have hg := real_gate_standing Real.exp Real.arctan Real.pi (some ((45 : ℝ), ⟨0, 0, 1⟩)) none
  have hL := lineTrace_standing_left (AFpsIkCharacter.ctor : AFpsIkCharacter ℝ)
    (some ((45 : ℝ), ⟨0, 0, 1⟩)) none
  have hR := lineTrace_standing_right (AFpsIkCharacter.ctor : AFpsIkCharacter ℝ)
    (some ((45 : ℝ), ⟨0, 0, 1⟩)) none
  have hs : (specEngine Real.sqrt Real.exp Real.arctan Real.pi).Size
      (FVector.sub (⟨0, -10, 0 - 96 - 55 + 45⟩ : FVector ℝ)
        (TraceFoot.End AFpsIkCharacter.ctor (World.standing (some ((45 : ℝ), ⟨0, 0, 1⟩)) none)
          "foot_lSocket")) = 55 - 10 := by
    rw [traceEnd_standing_left]
    exact (real_size_above Real.exp Real.arctan Real.pi 0 (-10) (0 - 96 - 55) 45
      (by norm_num)).trans (by norm_num)
  have key := scenarioB_targets (specEngine Real.sqrt Real.exp Real.arctan Real.pi)
    AFpsIkCharacter.ctor (World.standing (some ((45 : ℝ), ⟨0, 0, 1⟩)) none) (1 / 60) _ rfl rfl
    hg hL hs hR
  exact ⟨rfl, rfl, hg, key.1, key.2.2.1⟩

/-- Scenario B at the first tick of the constructed character (hip offset 0,
`DeltaTime = 1/60`), over the reals: the left offset is -8, the right offset 0 and
the hip target -8, yet the value the capsule half-height is interpolated toward in
that tick is not `96 - 4`, neither with the exponential step of the spec nor with
the clamped blend (where it is `96 - 7/15`). -/
theorem scenarioB_capsule_target_not_base_minus_4 :
    ((Tick (specEngine Real.sqrt Real.exp Real.arctan Real.pi) AFpsIkCharacter.ctor
        (World.standing (some ((45 : ℝ), ⟨0, 0, 1⟩)) none) (1 / 60)).m_LeftFootOffset = -8 ∧
      (Tick (specEngine Real.sqrt Real.exp Real.arctan Real.pi) AFpsIkCharacter.ctor
        (World.standing (some ((45 : ℝ), ⟨0, 0, 1⟩)) none) (1 / 60)).m_RightFootOffset = 0 ∧
      UpdateHip.NewOffset (UpdateIK.Feet (specEngine Real.sqrt Real.exp Real.arctan Real.pi)
        AFpsIkCharacter.ctor (World.standing (some ((45 : ℝ), ⟨0, 0, 1⟩)) none) (1 / 60)) = -8 ∧
      UpdateHip.NewCapsuleHalfHeight (specEngine Real.sqrt Real.exp Real.arctan Real.pi)
        (UpdateIK.Feet (specEngine Real.sqrt Real.exp Real.arctan Real.pi)
          AFpsIkCharacter.ctor (World.standing (some ((45 : ℝ), ⟨0, 0, 1⟩)) none) (1 / 60))
        (1 / 60) ≠ (AFpsIkCharacter.ctor : AFpsIkCharacter ℝ).m_CapsuleHalfHeight - 4) ∧
    UpdateHip.NewCapsuleHalfHeight (clampedEngine Real.sqrt Real.arctan Real.pi)
        (UpdateIK.Feet (clampedEngine Real.sqrt Real.arctan Real.pi)
          AFpsIkCharacter.ctor (World.standing (some ((45 : ℝ), ⟨0, 0, 1⟩)) none) (1 / 60))
        (1 / 60) = 96 - 7 / 15 := by
  have hg := real_gate_standing Real.exp Real.arctan Real.pi (some ((45 : ℝ), ⟨0, 0, 1⟩)) none
  have hL := lineTrace_standing_left (AFpsIkCharacter.ctor : AFpsIkCharacter ℝ)
    (some ((45 : ℝ), ⟨0, 0, 1⟩)) none
  have hR := lineTrace_standing_right (AFpsIkCharacter.ctor : AFpsIkCharacter ℝ)
    (some ((45 : ℝ), ⟨0, 0, 1⟩)) none
  have hs : ∀ exp : ℝ → ℝ, (specEngine Real.sqrt exp Real.arctan Real.pi).Size
      (FVector.sub (⟨0, -10, 0 - 96 - 55 + 45⟩ : FVector ℝ)
        (TraceFoot.End AFpsIkCharacter.ctor (World.standing (some ((45 : ℝ), ⟨0, 0, 1⟩)) none)
          "foot_lSocket")) = 55 - 10 := by
    intro exp
    rw [traceEnd_standing_left]
    exact (real_size_above exp Real.arctan Real.pi 0 (-10) (0 - 96 - 55) 45
      (by norm_num)).trans (by norm_num)
  obtain ⟨h1, h2, h3⟩ := feet_scenarioB (specEngine Real.sqrt Real.exp Real.arctan Real.pi)
    AFpsIkCharacter.ctor (World.standing (some ((45 : ℝ), ⟨0, 0, 1⟩)) none) (1 / 60) _ rfl rfl
    hL (hs Real.exp) hR
  obtain ⟨-, -, k3⟩ := feet_scenarioB (clampedEngine Real.sqrt Real.arctan Real.pi)
    AFpsIkCharacter.ctor (World.standing (some ((45 : ℝ), ⟨0, 0, 1⟩)) none) (1 / 60) _ rfl rfl
    hL (hs fun _ => 0) hR
  refine ⟨⟨?_, ?_, h3, ?_⟩, ?_⟩
  · rw [tick_of_gate _ _ _ _ hg]; exact h1
  · rw [tick_of_gate _ _ _ _ hg]; exact h2
  · unfold UpdateHip.NewCapsuleHalfHeight UpdateHip.HipOffset
    rw [h3]
    show (96 : ℝ) - |expInterpTo Real.exp 0 (-8) (1 / 60) 7| / 2 ≠ 96 - 4
    unfold expInterpTo
    have he0 : 0 < Real.exp (-(7 * (1 / 60))) := Real.exp_pos _
    have he1 : Real.exp (-(7 * (1 / 60))) < 1 := by
      rw [Real.exp_lt_one_iff]
      norm_num
    have hneg : -8 + (0 - -8) * Real.exp (-(7 * (1 / 60))) < 0 := by linarith
    rw [abs_of_neg hneg]
    intro h
    linarith
  · unfold UpdateHip.NewCapsuleHalfHeight UpdateHip.HipOffset
    rw [k3]
    show (96 : ℝ) - |clampedInterpTo 0 (-8) (1 / 60) 7| / 2 = 96 - 7 / 15
    unfold clampedInterpTo
    have hk : max (0 : ℝ) (min (1 / 60 * 7) 1) = 7 / 60 := by
      rw [min_eq_left (by norm_num), max_eq_right (by norm_num)]
      norm_num
    rw [hk]
    have hneg : (0 : ℝ) + (-8 - 0) * (7 / 60) < 0 := by norm_num
    rw [abs_of_neg hneg]
    norm_num

/-- C5 (foot offset sign, amended). If every hit of the left probe and every hit
of the right probe lies at most `m_TraceDistance - m_AdjustOffset` above the
bottom end of its probe segment (a miss is allowed), then both offsets that the
two `TraceFoot` calls hand to `UpdateHip` are at most 0; and any `TraceFoot` call
whose hit lies that low returns an offset of at most 0. A hit at a distance
strictly below `m_TraceDistance` only gives an offset strictly below
`m_AdjustOffset`. -/
theorem foot_offsets_nonpos_of_low_hits (E : Engine α) (c : AFpsIkCharacter α) (W : World α)
    (dt : α)
    (hL : ∀ Hit, LineTraceSingleByChannel W (TraceFoot.Start W c.m_LeftFootSocket)
        (TraceFoot.End c W c.m_LeftFootSocket) = some Hit →
      E.Size (Hit.Location.sub (TraceFoot.End c W c.m_LeftFootSocket)) ≤
        c.m_TraceDistance - c.m_AdjustOffset)
    (hR : ∀ Hit, LineTraceSingleByChannel W (TraceFoot.Start W c.m_RightFootSocket)
        (TraceFoot.End c W c.m_RightFootSocket) = some Hit →
      E.Size (Hit.Location.sub (TraceFoot.End c W c.m_RightFootSocket)) ≤
        c.m_TraceDistance - c.m_AdjustOffset) :
    (UpdateIK.Feet E c W dt).m_LeftFootOffset ≤ 0 ∧
      (UpdateIK.Feet E c W dt).m_RightFootOffset ≤ 0 ∧
      (∀ (SocketName : FName) (o : α) (r : FRotator α) (Hit : FHitResult α),
        LineTraceSingleByChannel W (TraceFoot.Start W SocketName)
          (TraceFoot.End c W SocketName) = some Hit →
        E.Size (Hit.Location.sub (TraceFoot.End c W SocketName)) ≤
          c.m_TraceDistance - c.m_AdjustOffset →
        (TraceFoot E c W SocketName o r dt).1 ≤ 0) ∧
      (∀ (SocketName : FName) (o : α) (r : FRotator α) (Hit : FHitResult α),
        LineTraceSingleByChannel W (TraceFoot.Start W SocketName)
          (TraceFoot.End c W SocketName) = some Hit →
        E.Size (Hit.Location.sub (TraceFoot.End c W SocketName)) < c.m_TraceDistance →
        (TraceFoot E c W SocketName o r dt).1 < c.m_AdjustOffset) := by
  refine ⟨?_, ?_, ?_, ?_⟩
  · rw [feet_leftOffset]
    exact traceFoot_offset_le E c W _ _ _ dt hL
  · rw [feet_rightOffset]
    exact traceFoot_offset_le E c W _ _ _ dt hR
  · intro SocketName o r Hit hHit hle
    rw [traceFoot_of_some E c W SocketName o r dt Hit hHit, lineTrace_traceEnd W _ _ Hit hHit]
    simp only
    linarith
  · intro SocketName o r Hit hHit hlt
    rw [traceFoot_of_some E c W SocketName o r dt Hit hHit, lineTrace_traceEnd W _ _ Hit hHit]
    simp only
    linarith

/-- The hypotheses of `foot_offsets_nonpos_of_low_hits` hold for the constructed
character in the standing world with a left hit 45 above the bottom end of the
probe (at most `55 - 2`) and a right miss. -/
theorem foot_offsets_nonpos_of_low_hits_witness :
    (∀ Hit, LineTraceSingleByChannel (World.standing (some ((45 : ℝ), ⟨0, 0, 1⟩)) none)
        (TraceFoot.Start (World.standing (some ((45 : ℝ), ⟨0, 0, 1⟩)) none) "foot_lSocket")
        (TraceFoot.End AFpsIkCharacter.ctor (World.standing (some ((45 : ℝ), ⟨0, 0, 1⟩)) none)
          "foot_lSocket") = some Hit →
      (specEngine Real.sqrt Real.exp Real.arctan Real.pi).Size
        (Hit.Location.sub (TraceFoot.End AFpsIkCharacter.ctor
          (World.standing (some ((45 : ℝ), ⟨0, 0, 1⟩)) none) "foot_lSocket")) ≤ 55 - 2) ∧
      (UpdateIK.Feet (specEngine Real.sqrt Real.exp Real.arctan Real.pi) AFpsIkCharacter.ctor
        (World.standing (some ((45 : ℝ), ⟨0, 0, 1⟩)) none) (1 / 60)).m_LeftFootOffset ≤ 0 ∧
      (UpdateIK.Feet (specEngine Real.sqrt Real.exp Real.arctan Real.pi) AFpsIkCharacter.ctor
        (World.standing (some ((45 : ℝ), ⟨0, 0, 1⟩)) none) (1 / 60)).m_RightFootOffset ≤ 0 := by
  have hL : ∀ Hit, LineTraceSingleByChannel (World.standing (some ((45 : ℝ), ⟨0, 0, 1⟩)) none)
        (TraceFoot.Start (World.standing (some ((45 : ℝ), ⟨0, 0, 1⟩)) none) "foot_lSocket")
        (TraceFoot.End AFpsIkCharacter.ctor (World.standing (some ((45 : ℝ), ⟨0, 0, 1⟩)) none)
          "foot_lSocket") = some Hit →
      (specEngine Real.sqrt Real.exp Real.arctan Real.pi).Size
        (Hit.Location.sub (TraceFoot.End AFpsIkCharacter.ctor
          (World.standing (some ((45 : ℝ), ⟨0, 0, 1⟩)) none) "foot_lSocket")) ≤ 55 - 2 := by
    intro Hit h
    rw [lineTrace_standing_left] at h
    simp only [Option.map_some', Option.some.injEq] at h
    rw [← h, traceEnd_standing_left]
    exact le_of_eq_of_le (real_size_above Real.exp Real.arctan Real.pi 0 (-10)
      (0 - 96 - 55) 45 (by norm_num)) (by norm_num)
  have hR : ∀ Hit, LineTraceSingleByChannel (World.standing (some ((45 : ℝ), ⟨0, 0, 1⟩)) none)
        (TraceFoot.Start (World.standing (some ((45 : ℝ), ⟨0, 0, 1⟩)) none) "foot_rSocket")
        (TraceFoot.End AFpsIkCharacter.ctor (World.standing (some ((45 : ℝ), ⟨0, 0, 1⟩)) none)
          "foot_rSocket") = some Hit →
      (specEngine Real.sqrt Real.exp Real.arctan Real.pi).Size
        (Hit.Location.sub (TraceFoot.End AFpsIkCharacter.ctor
          (World.standing (some ((45 : ℝ), ⟨0, 0, 1⟩)) none) "foot_rSocket")) ≤ 55 - 2 := by
    intro Hit h
    rw [lineTrace_standing_right] at h
    simp at h
  have key := foot_offsets_nonpos_of_low_hits
    (specEngine Real.sqrt Real.exp Real.arctan Real.pi) AFpsIkCharacter.ctor
    (World.standing (some ((45 : ℝ), ⟨0, 0, 1⟩)) none) (1 / 60) hL hR
  exact ⟨hL, key.1, key.2.1⟩

/-- A left hit 54 above the bottom end of the probe is strictly below the default
trace distance 55, and `TraceFoot` returns the offset 1, which is positive. -/
theorem foot_offset_positive_below_reference :
    (specEngine Real.sqrt Real.exp Real.arctan Real.pi).Size
        (FVector.sub (⟨0, -10, 0 - 96 - 55 + 54⟩ : FVector ℝ)
          (TraceFoot.End AFpsIkCharacter.ctor
            (World.standing (some ((54 : ℝ), ⟨0, 0, 1⟩)) none) "foot_lSocket")) <
        (AFpsIkCharacter.ctor : AFpsIkCharacter ℝ).m_TraceDistance ∧
      LineTraceSingleByChannel (World.standing (some ((54 : ℝ), ⟨0, 0, 1⟩)) none)
        (TraceFoot.Start (World.standing (some ((54 : ℝ), ⟨0, 0, 1⟩)) none) "foot_lSocket")
        (TraceFoot.End AFpsIkCharacter.ctor (World.standing (some ((54 : ℝ), ⟨0, 0, 1⟩)) none)
          "foot_lSocket") =
        some ⟨⟨0, -10, 0 - 96 - 55 + 54⟩, ⟨0, 0, 1⟩, ⟨0, -10, 0⟩, ⟨0, -10, 0 - 96 - 55⟩⟩ ∧
      (TraceFoot (specEngine Real.sqrt Real.exp Real.arctan Real.pi) AFpsIkCharacter.ctor
        (World.standing (some ((54 : ℝ), ⟨0, 0, 1⟩)) none) "foot_lSocket" 0 ⟨0, 0, 0⟩
        (1 / 60)).1 = 1 ∧
      ¬ (TraceFoot (specEngine Real.sqrt Real.exp Real.arctan Real.pi) AFpsIkCharacter.ctor
        (World.standing (some ((54 : ℝ), ⟨0, 0, 1⟩)) none) "foot_lSocket" 0 ⟨0, 0, 0⟩
        (1 / 60)).1 ≤ 0 := by
  have h := lineTrace_standing_left (AFpsIkCharacter.ctor : AFpsIkCharacter ℝ)
    (some ((54 : ℝ), ⟨0, 0, 1⟩)) none
  have hs : (specEngine Real.sqrt Real.exp Real.arctan Real.pi).Size
      (FVector.sub (⟨0, -10, 0 - 96 - 55 + 54⟩ : FVector ℝ)
        (TraceFoot.End AFpsIkCharacter.ctor (World.standing (some ((54 : ℝ), ⟨0, 0, 1⟩)) none)
          "foot_lSocket")) = 54 := by
    rw [traceEnd_standing_left]
    exact real_size_above Real.exp Real.arctan Real.pi 0 (-10) (0 - 96 - 55) 54 (by norm_num)
  have hv : (TraceFoot (specEngine Real.sqrt Real.exp Real.arctan Real.pi) AFpsIkCharacter.ctor
        (World.standing (some ((54 : ℝ), ⟨0, 0, 1⟩)) none) "foot_lSocket" 0 ⟨0, 0, 0⟩
        (1 / 60)).1 = 1 := by
    rw [traceFoot_of_some _ _ _ _ _ _ _ _ h]
    show (specEngine Real.sqrt Real.exp Real.arctan Real.pi).Size
      (FVector.sub (⟨0, -10, 0 - 96 - 55 + 54⟩ : FVector ℝ)
        (TraceFoot.End AFpsIkCharacter.ctor (World.standing (some ((54 : ℝ), ⟨0, 0, 1⟩)) none)
          "foot_lSocket")) - 55 + 2 = 1
    rw [hs]
    norm_num
  refine ⟨?_, h, hv, ?_⟩
  · rw [hs]
    show (54 : ℝ) < 55
    norm_num
  · rw [hv]
    norm_num

/-- C6 (collision half-height range). For an engine whose `FInterpTo` does not
overshoot when `DeltaTime ≥ 0` and the speed is positive, start from the
constructed character (default tunings, hip offset 0, capsule half-height and
`m_CapsuleHalfHeight` both 96). Over every sequence of ticks with `DeltaTime ≥ 0`
whose probe hits lie on the probe segment (distance from its bottom end between 0
and `96 + 55`), the capsule half-height that `UpdateHip` writes back is positive
and at most `m_CapsuleHalfHeight = 96` after every tick. -/
theorem capsule_half_height_in_range (E : Engine α)
    (hE : ∀ dt s : α, 0 ≤ dt → 0 < s → OvershootFree E.FInterpTo dt s)
    (ticks : List (World α × α)) (hdt : ∀ t ∈ ticks, 0 ≤ t.2)
    (hprobe : ∀ t ∈ ticks, ProbesOnSegment E AFpsIkCharacter.ctor t.1) (n : ℕ) :
    0 < (runTicks E AFpsIkCharacter.ctor (ticks.take n)).CapsuleHalfHeight ∧
      (runTicks E AFpsIkCharacter.ctor (ticks.take n)).CapsuleHalfHeight ≤
        (AFpsIkCharacter.ctor : AFpsIkCharacter α).m_CapsuleHalfHeight := by
  have h7 : (0 : α) < (AFpsIkCharacter.ctor : AFpsIkCharacter α).m_HipInterpSpeed := by
    show (0 : α) < 7
    norm_num
  have key := runTicks_range E (AFpsIkCharacter.ctor : AFpsIkCharacter α) rfl rfl rfl
    (ticks.take n) AFpsIkCharacter.ctor (sameTunings_refl _)
    (fun t ht => hE t.2 _ (hdt t (List.mem_of_mem_take ht)) h7)
    (fun t ht => hprobe t (List.mem_of_mem_take ht))
    (by show (-53 : α) ≤ 0; norm_num) (by show (0 : α) ≤ 0; exact le_refl 0)
    (by show (139 / 2 : α) ≤ 96; norm_num) (by show (96 : α) ≤ 96; exact le_refl 96)
  refine ⟨lt_of_lt_of_le (by norm_num) key.1, ?_⟩
  show _ ≤ (96 : α)
  exact key.2

/-- The hypotheses of `capsule_half_height_in_range` hold for the exponential step
of the spec over the reals, on a run of two ticks: at `DeltaTime = 1/60` a left
hit 45 above the bottom of the probe with a right miss, then at `DeltaTime = 0`
hits at both extremities of the probe segment. -/
theorem capsule_half_height_in_range_witness :
    (∀ dt s : ℝ, 0 ≤ dt → 0 < s →
        OvershootFree (specEngine Real.sqrt Real.exp Real.arctan Real.pi).FInterpTo dt s) ∧
      (∀ t ∈ [((World.standing (some ((45 : ℝ), ⟨0, 0, 1⟩)) none, 1 / 60) : World ℝ × ℝ),
          (World.standing (some (151, ⟨0, 0, 1⟩)) (some (0, ⟨0, 0, 1⟩)), 0)], 0 ≤ t.2) ∧
      (∀ t ∈ [((World.standing (some ((45 : ℝ), ⟨0, 0, 1⟩)) none, 1 / 60) : World ℝ × ℝ),
          (World.standing (some (151, ⟨0, 0, 1⟩)) (some (0, ⟨0, 0, 1⟩)), 0)],
        ProbesOnSegment (specEngine Real.sqrt Real.exp Real.arctan Real.pi)
          AFpsIkCharacter.ctor t.1) ∧
      0 < (runTicks (specEngine Real.sqrt Real.exp Real.arctan Real.pi) AFpsIkCharacter.ctor
        ([((World.standing (some ((45 : ℝ), ⟨0, 0, 1⟩)) none, 1 / 60) : World ℝ × ℝ),
          (World.standing (some (151, ⟨0, 0, 1⟩)) (some (0, ⟨0, 0, 1⟩)), 0)].take
            2)).CapsuleHalfHeight := by
  have hE : ∀ dt s : ℝ, 0 ≤ dt → 0 < s →
      OvershootFree (specEngine Real.sqrt Real.exp Real.arctan Real.pi).FInterpTo dt s :=
    fun dt s hdt hs => expInterpTo_real_overshootFree dt s hdt hs
  have hdt : ∀ t ∈ [((World.standing (some ((45 : ℝ), ⟨0, 0, 1⟩)) none, 1 / 60) : World ℝ × ℝ),
      (World.standing (some (151, ⟨0, 0, 1⟩)) (some (0, ⟨0, 0, 1⟩)), 0)], 0 ≤ t.2 := by
    intro t ht
    simp only [List.mem_cons, List.mem_singleton, List.not_mem_nil, or_false] at ht
    rcases ht with rfl | rfl
    · norm_num
    · norm_num
  have hW : ∀ t ∈ [((World.standing (some ((45 : ℝ), ⟨0, 0, 1⟩)) none, 1 / 60) : World ℝ × ℝ),
      (World.standing (some (151, ⟨0, 0, 1⟩)) (some (0, ⟨0, 0, 1⟩)), 0)],
      ProbesOnSegment (specEngine Real.sqrt Real.exp Real.arctan Real.pi)
        AFpsIkCharacter.ctor t.1 := by
    intro t ht
    simp only [List.mem_cons, List.mem_singleton, List.not_mem_nil, or_false] at ht
    rcases ht with rfl | rfl
    · apply probesOnSegment_standing
      · intro p hp
        simp only [Option.mem_def, Option.some.injEq] at hp
        subst hp
        norm_num
      · intro p hp
        simp at hp
    · apply probesOnSegment_standing
      · intro p hp
        simp only [Option.mem_def, Option.some.injEq] at hp
        subst hp
        norm_num
      · intro p hp
        simp only [Option.mem_def, Option.some.injEq] at hp
        subst hp
        norm_num
  exact ⟨hE, hdt, hW, (capsule_half_height_in_range _ hE _ hdt hW 2).1⟩

/-- C8 (interpolation convergence, P3). For the exponential step that the spec
ascribes to `FInterpTo`, with `DeltaTime > 0` and speed `> 0`, the iterates toward
a constant target from any start value have a non-increasing distance to the
target, stay between the start value and the target, and are within every
`ε > 0` of the target from some tick on. -/
theorem interpolation_converges (x0 Target DeltaTime InterpSpeed : ℝ) (hdt : 0 < DeltaTime)
    (hs : 0 < InterpSpeed) :
    (∀ k : ℕ,
      |interpIter (specEngine Real.sqrt Real.exp Real.arctan Real.pi).FInterpTo Target DeltaTime
          InterpSpeed (k + 1) x0 - Target| ≤
        |interpIter (specEngine Real.sqrt Real.exp Real.arctan Real.pi).FInterpTo Target DeltaTime
          InterpSpeed k x0 - Target|) ∧
      (∀ k : ℕ,
        min x0 Target ≤ interpIter (specEngine Real.sqrt Real.exp Real.arctan Real.pi).FInterpTo
            Target DeltaTime InterpSpeed k x0 ∧
          interpIter (specEngine Real.sqrt Real.exp Real.arctan Real.pi).FInterpTo Target
            DeltaTime InterpSpeed k x0 ≤ max x0 Target) ∧
      (∀ ε : ℝ, 0 < ε → ∃ N : ℕ, ∀ k : ℕ, N ≤ k →
        |interpIter (specEngine Real.sqrt Real.exp Real.arctan Real.pi).FInterpTo Target
          DeltaTime InterpSpeed k x0 - Target| < ε) := by
  have hC := expInterpTo_real_contracting DeltaTime InterpSpeed hdt hs
  have hO := expInterpTo_real_overshootFree DeltaTime InterpSpeed hdt.le hs
  refine ⟨fun k => ?_, fun k => interpIter_between hO x0 Target k,
    interpIter_convergesTo hC x0 Target⟩
  obtain ⟨ρ, hρ0, hρ1, hstep⟩ := hC
  exact interpIter_dist_le hρ1 hstep x0 Target k

/-- The iterates from 0 toward -8 at `DeltaTime = 1/60` and speed 7. -/
theorem interpolation_converges_witness :
    (0 : ℝ) < 1 / 60 ∧ (0 : ℝ) < 7 ∧
      ∀ ε : ℝ, 0 < ε → ∃ N : ℕ, ∀ k : ℕ, N ≤ k →
        |interpIter (specEngine Real.sqrt Real.exp Real.arctan Real.pi).FInterpTo (-8) (1 / 60)
          7 k 0 - -8| < ε :=
  ⟨by norm_num, by norm_num,
    (interpolation_converges 0 (-8) (1 / 60) 7 (by norm_num) (by norm_num)).2.2⟩

/-- C10 (exponential decay law). Run the IK code with the exponential steps that
the spec ascribes to `FInterpTo` and `RInterpTo`, at a speed `> 0` and a
`DeltaTime ≥ 0`. The factor `exp (-(InterpSpeed * DeltaTime))` lies in `(0, 1]`.
In one update the error to the target is multiplied by exactly that factor: for
every angle of the foot rotation that `TraceFoot` returns on a hit, for the hip
offset and the capsule half-height written by `UpdateHip`, and for the effector
returned by `UpdateFootEffector`; so no error grows. Two updates of
`DeltaTime / 2` toward the same target give the result of one update of
`DeltaTime`: for the rotation of `TraceFoot` on the same hit, for the hip offset of
`UpdateHip` and for `UpdateFootEffector`; and `n + 1` steps of
`DeltaTime / (n + 1)` give the result of one step. -/
theorem exponential_decay_law (DeltaTime InterpSpeed : ℝ) (hs : 0 < InterpSpeed)
    (hdt : 0 ≤ DeltaTime) :
    (0 < Real.exp (-(InterpSpeed * DeltaTime)) ∧ Real.exp (-(InterpSpeed * DeltaTime)) ≤ 1) ∧
    (∀ (c : AFpsIkCharacter ℝ) (W : World ℝ) (SocketName : FName) (OutOffset : ℝ)
        (OutRotation : FRotator ℝ) (Hit : FHitResult ℝ),
      c.m_FootInterpSpeed = InterpSpeed →
      LineTraceSingleByChannel W (TraceFoot.Start W SocketName)
        (TraceFoot.End c W SocketName) = some Hit →
      ((TraceFoot (specEngine Real.sqrt Real.exp Real.arctan Real.pi) c W SocketName OutOffset
            OutRotation DeltaTime).2.Pitch
          - (TraceFoot.NewRotation (specEngine Real.sqrt Real.exp Real.arctan Real.pi) Hit).Pitch =
        (OutRotation.Pitch
          - (TraceFoot.NewRotation (specEngine Real.sqrt Real.exp Real.arctan Real.pi) Hit).Pitch)
          * Real.exp (-(InterpSpeed * DeltaTime)) ∧
        (TraceFoot (specEngine Real.sqrt Real.exp Real.arctan Real.pi) c W SocketName OutOffset
            OutRotation DeltaTime).2.Yaw
          - (TraceFoot.NewRotation (specEngine Real.sqrt Real.exp Real.arctan Real.pi) Hit).Yaw =
        (OutRotation.Yaw
          - (TraceFoot.NewRotation (specEngine Real.sqrt Real.exp Real.arctan Real.pi) Hit).Yaw)
          * Real.exp (-(InterpSpeed * DeltaTime)) ∧
        (TraceFoot (specEngine Real.sqrt Real.exp Real.arctan Real.pi) c W SocketName OutOffset
            OutRotation DeltaTime).2.Roll
          - (TraceFoot.NewRotation (specEngine Real.sqrt Real.exp Real.arctan Real.pi) Hit).Roll =
        (OutRotation.Roll
          - (TraceFoot.NewRotation (specEngine Real.sqrt Real.exp Real.arctan Real.pi) Hit).Roll)
          * Real.exp (-(InterpSpeed * DeltaTime))) ∧
      (TraceFoot (specEngine Real.sqrt Real.exp Real.arctan Real.pi) c W SocketName OutOffset
          (TraceFoot (specEngine Real.sqrt Real.exp Real.arctan Real.pi) c W SocketName OutOffset
            OutRotation (DeltaTime / 2)).2 (DeltaTime / 2)).2 =
        (TraceFoot (specEngine Real.sqrt Real.exp Real.arctan Real.pi) c W SocketName OutOffset
          OutRotation DeltaTime).2) ∧
    (∀ c : AFpsIkCharacter ℝ, c.m_HipInterpSpeed = InterpSpeed →
      (UpdateHip (specEngine Real.sqrt Real.exp Real.arctan Real.pi) c DeltaTime).m_HipOffset
          - UpdateHip.NewOffset c =
        (c.m_HipOffset - UpdateHip.NewOffset c) * Real.exp (-(InterpSpeed * DeltaTime)) ∧
      (UpdateHip (specEngine Real.sqrt Real.exp Real.arctan Real.pi) c
            DeltaTime).CapsuleHalfHeight
          - UpdateHip.NewCapsuleHalfHeight (specEngine Real.sqrt Real.exp Real.arctan Real.pi)
            c DeltaTime =
        (c.CapsuleHalfHeight
          - UpdateHip.NewCapsuleHalfHeight (specEngine Real.sqrt Real.exp Real.arctan Real.pi)
            c DeltaTime) * Real.exp (-(InterpSpeed * DeltaTime)) ∧
      |(UpdateHip (specEngine Real.sqrt Real.exp Real.arctan Real.pi) c DeltaTime).m_HipOffset
          - UpdateHip.NewOffset c| ≤ |c.m_HipOffset - UpdateHip.NewOffset c| ∧
      (UpdateHip (specEngine Real.sqrt Real.exp Real.arctan Real.pi)
          (UpdateHip (specEngine Real.sqrt Real.exp Real.arctan Real.pi) c (DeltaTime / 2))
          (DeltaTime / 2)).m_HipOffset =
        (UpdateHip (specEngine Real.sqrt Real.exp Real.arctan Real.pi) c
          DeltaTime).m_HipOffset) ∧
    (∀ (c : AFpsIkCharacter ℝ) (OutEffectorLocation FootOffset : ℝ),
      c.m_FootInterpSpeed = InterpSpeed →
      UpdateFootEffector (specEngine Real.sqrt Real.exp Real.arctan Real.pi) c
          OutEffectorLocation FootOffset DeltaTime - (FootOffset - c.m_HipOffset) =
        (OutEffectorLocation - (FootOffset - c.m_HipOffset))
          * Real.exp (-(InterpSpeed * DeltaTime)) ∧
      |UpdateFootEffector (specEngine Real.sqrt Real.exp Real.arctan Real.pi) c
          OutEffectorLocation FootOffset DeltaTime - (FootOffset - c.m_HipOffset)| ≤
        |OutEffectorLocation - (FootOffset - c.m_HipOffset)| ∧
      UpdateFootEffector (specEngine Real.sqrt Real.exp Real.arctan Real.pi) c
          (UpdateFootEffector (specEngine Real.sqrt Real.exp Real.arctan Real.pi) c
            OutEffectorLocation FootOffset (DeltaTime / 2)) FootOffset (DeltaTime / 2) =
        UpdateFootEffector (specEngine Real.sqrt Real.exp Real.arctan Real.pi) c
          OutEffectorLocation FootOffset DeltaTime) ∧
    (∀ (Current Target : ℝ) (n : ℕ),
      interpIter (specEngine Real.sqrt Real.exp Real.arctan Real.pi).FInterpTo Target
          (DeltaTime / (n + 1 : ℕ)) InterpSpeed (n + 1) Current =
        (specEngine Real.sqrt Real.exp Real.arctan Real.pi).FInterpTo Current Target DeltaTime
          InterpSpeed) := by
  refine ⟨exp_decay_factor DeltaTime InterpSpeed hs hdt, ?_, ?_, ?_,
    fun cur tgt n => interpIter_exp_substeps cur tgt DeltaTime InterpSpeed n⟩
  · intro c W SocketName o r Hit hc hHit
    rw [traceFoot_of_some _ c W SocketName o r DeltaTime Hit hHit,
      traceFoot_of_some _ c W SocketName o _ (DeltaTime / 2) Hit hHit,
      traceFoot_of_some _ c W SocketName o r (DeltaTime / 2) Hit hHit, hc]
    exact ⟨⟨expInterpTo_real_sub _ _ _ _, expInterpTo_real_sub _ _ _ _,
      expInterpTo_real_sub _ _ _ _⟩,
      specRInterpTo_real_half Real.sqrt Real.arctan Real.pi _ _ _ _⟩
  · intro c hc
    rw [← hc]
    refine ⟨expInterpTo_real_sub _ _ _ _, expInterpTo_real_sub _ _ _ _, ?_, ?_⟩
    · exact expInterpTo_real_dist_le _ _ _ _ (hc ▸ hs) hdt
    · exact expInterpTo_real_half c.m_HipOffset (UpdateHip.NewOffset c) DeltaTime
        c.m_HipInterpSpeed
  · intro c o f hc
    rw [← hc]
    refine ⟨expInterpTo_real_sub _ _ _ _, ?_, ?_⟩
    · exact expInterpTo_real_dist_le _ _ _ _ (hc ▸ hs) hdt
    · exact expInterpTo_real_half o (f - c.m_HipOffset) DeltaTime c.m_FootInterpSpeed

/-- The decay law at speed 13 and `DeltaTime = 1/60` for the left foot of the
constructed character, hit on flat ground 45 above the bottom of the probe: the
pitch returned by `TraceFoot` from the prior rotation `(5, 0, 0)`. -/
theorem exponential_decay_law_witness :
    (0 : ℝ) < 13 ∧ (0 : ℝ) ≤ 1 / 60 ∧
      (TraceFoot (specEngine Real.sqrt Real.exp Real.arctan Real.pi) AFpsIkCharacter.ctor
            (World.standing (some ((45 : ℝ), ⟨0, 0, 1⟩)) none) "foot_lSocket" 0 ⟨5, 0, 0⟩
            (1 / 60)).2.Pitch
          - (TraceFoot.NewRotation (specEngine Real.sqrt Real.exp Real.arctan Real.pi)
              (⟨⟨0, -10, 0 - 96 - 55 + 45⟩, ⟨0, 0, 1⟩, ⟨0, -10, 0⟩,
                ⟨0, -10, 0 - 96 - 55⟩⟩ : FHitResult ℝ)).Pitch =
        (5 - (TraceFoot.NewRotation (specEngine Real.sqrt Real.exp Real.arctan Real.pi)
              (⟨⟨0, -10, 0 - 96 - 55 + 45⟩, ⟨0, 0, 1⟩, ⟨0, -10, 0⟩,
                ⟨0, -10, 0 - 96 - 55⟩⟩ : FHitResult ℝ)).Pitch)
          * Real.exp (-(13 * (1 / 60))) := by
  have h := lineTrace_standing_left (AFpsIkCharacter.ctor : AFpsIkCharacter ℝ)
    (some ((45 : ℝ), ⟨0, 0, 1⟩)) none
  exact ⟨by norm_num, by norm_num,
    ((exponential_decay_law (1 / 60) 13 (by norm_num) (by norm_num)).2.1
      AFpsIkCharacter.ctor _ "foot_lSocket" 0 ⟨5, 0, 0⟩ _ rfl h).1.1⟩

/-- C9 (target foot rotation). On a hit with surface normal `(nx, ny, nz)`,
`TraceFoot` turns the foot rotation toward the rotator with pitch
`-RadiansToDegrees (Atan2 (nx, nz))`, yaw 0 and roll
`RadiansToDegrees (Atan2 (ny, nz))`. With the real arctangent, a normal
`(sin t, 0, cos t)` for an angle `t` strictly between -90 and 90 degrees gives the
target `(pitch, yaw, roll) = (-t, 0, 0)`; so 10 degrees give pitch -10 and roll 0
(Scenario C), and the flat normal `(0, 0, 1)` gives `(0, 0, 0)`. -/
theorem foot_target_rotation (E : Engine ℝ) (c : AFpsIkCharacter ℝ) (W : World ℝ)
    (SocketName : FName) (OutOffset : ℝ) (OutRotation : FRotator ℝ) (DeltaTime : ℝ)
    (Hit : FHitResult ℝ)
    (hhit : LineTraceSingleByChannel W (TraceFoot.Start W SocketName)
      (TraceFoot.End c W SocketName) = some Hit) :
    ((TraceFoot E c W SocketName OutOffset OutRotation DeltaTime).2 =
        E.RInterpTo OutRotation (TraceFoot.NewRotation E Hit) DeltaTime c.m_FootInterpSpeed ∧
      (TraceFoot.NewRotation E Hit).Pitch =
        -E.RadiansToDegrees (E.Atan2 Hit.Normal.X Hit.Normal.Z) ∧
      (TraceFoot.NewRotation E Hit).Roll =
        E.RadiansToDegrees (E.Atan2 Hit.Normal.Y Hit.Normal.Z) ∧
      (TraceFoot.NewRotation E Hit).Yaw = 0) ∧
    (∀ t : ℝ, -90 < t → t < 90 →
      Hit.Normal = ⟨Real.sin (t * (Real.pi / 180)), 0, Real.cos (t * (Real.pi / 180))⟩ →
      TraceFoot.NewRotation (specEngine Real.sqrt Real.exp Real.arctan Real.pi) Hit =
        ⟨-t, 0, 0⟩) ∧
    (Hit.Normal = ⟨Real.sin (10 * (Real.pi / 180)), 0, Real.cos (10 * (Real.pi / 180))⟩ →
      TraceFoot.NewRotation (specEngine Real.sqrt Real.exp Real.arctan Real.pi) Hit =
        ⟨-10, 0, 0⟩) ∧
    (Hit.Normal = ⟨0, 0, 1⟩ →
      TraceFoot.NewRotation (specEngine Real.sqrt Real.exp Real.arctan Real.pi) Hit =
        ⟨0, 0, 0⟩) := by
  refine ⟨⟨?_, rfl, rfl, rfl⟩, fun t h1 h2 hn => real_newRotation_tilt Hit t h1 h2 hn,
    fun hn => real_newRotation_tilt Hit 10 (by norm_num) (by norm_num) hn, fun hn => ?_⟩
  · rw [traceFoot_of_some E c W SocketName OutOffset OutRotation DeltaTime Hit hhit]
  · have h0 := real_newRotation_tilt Hit 0 (by norm_num) (by norm_num)
      (by rw [hn]; simp)
    rw [h0]
    simp

/-- The left foot of the constructed character in the standing world, hit on a
surface tilted by 10 degrees: the target rotation has pitch -10 and roll 0. -/
theorem foot_target_rotation_witness :
    LineTraceSingleByChannel
        (World.standing (some ((55 : ℝ),
          ⟨Real.sin (10 * (Real.pi / 180)), 0, Real.cos (10 * (Real.pi / 180))⟩)) none)
        (TraceFoot.Start (World.standing (some ((55 : ℝ),
          ⟨Real.sin (10 * (Real.pi / 180)), 0, Real.cos (10 * (Real.pi / 180))⟩)) none)
          "foot_lSocket")
        (TraceFoot.End AFpsIkCharacter.ctor (World.standing (some ((55 : ℝ),
          ⟨Real.sin (10 * (Real.pi / 180)), 0, Real.cos (10 * (Real.pi / 180))⟩)) none)
          "foot_lSocket") =
        some ⟨⟨0, -10, 0 - 96 - 55 + 55⟩,
          ⟨Real.sin (10 * (Real.pi / 180)), 0, Real.cos (10 * (Real.pi / 180))⟩,
          ⟨0, -10, 0⟩, ⟨0, -10, 0 - 96 - 55⟩⟩ ∧
      TraceFoot.NewRotation (specEngine Real.sqrt Real.exp Real.arctan Real.pi)
        (⟨⟨0, -10, 0 - 96 - 55 + 55⟩,
          ⟨Real.sin (10 * (Real.pi / 180)), 0, Real.cos (10 * (Real.pi / 180))⟩,
          ⟨0, -10, 0⟩, ⟨0, -10, 0 - 96 - 55⟩⟩ : FHitResult ℝ) = ⟨-10, 0, 0⟩ := by
  have h := lineTrace_standing_left (AFpsIkCharacter.ctor : AFpsIkCharacter ℝ)
    (some ((55 : ℝ), ⟨Real.sin (10 * (Real.pi / 180)), 0, Real.cos (10 * (Real.pi / 180))⟩))
    none
  exact ⟨h, (foot_target_rotation (specEngine Real.sqrt Real.exp Real.arctan Real.pi)
    AFpsIkCharacter.ctor _ "foot_lSocket" 0 ⟨0, 0, 0⟩ (1 / 60) _ h).2.2.1 rfl⟩

/-- C7 (steady-state fixed point, P4). Take an engine whose `FInterpTo` and
`RInterpTo` are contracting for every positive `DeltaTime` and speed, a character
with positive speeds, and a world in which the gate is open and both probes hit
(`HitL`, `HitR`), seen on every tick with the same `DeltaTime > 0`. With `oL`, `oR`
the offsets `TraceFoot` computes from the two hits, the state `SteadyState` has hip
offset `min (min oL oR) 0`, effectors `oL - hip` and `oR - hip`, capsule
half-height `m_CapsuleHalfHeight - |hip| / 2` and the two target rotations. The
run of `n` such ticks converges to it in the hip offset, both effectors, the
capsule half-height and every angle of both foot rotations; and a state with the
same tunings that has these values keeps all of them over one more such tick. -/
theorem steady_state_fixed_point [Archimedean α] (E : Engine α)
    (hF : ∀ dt s : α, 0 < dt → 0 < s → Contracting E.FInterpTo dt s)
    (hRc : ∀ dt s : α, 0 < dt → 0 < s → RContracting E.RInterpTo dt s)
    (c : AFpsIkCharacter α) (hsF : 0 < c.m_FootInterpSpeed) (hsH : 0 < c.m_HipInterpSpeed)
    (W : World α) (dt : α) (hdt : 0 < dt) (HitL HitR : FHitResult α)
    (hgate : E.IsNearlyZero (E.Size W.Velocity) = true)
    (hL : LineTraceSingleByChannel W (TraceFoot.Start W c.m_LeftFootSocket)
      (TraceFoot.End c W c.m_LeftFootSocket) = some HitL)
    (hR : LineTraceSingleByChannel W (TraceFoot.Start W c.m_RightFootSocket)
      (TraceFoot.End c W c.m_RightFootSocket) = some HitR) :
    ((SteadyState E c HitL HitR).m_LeftFootOffset =
        (TraceFoot E c W c.m_LeftFootSocket c.m_LeftFootOffset c.m_LeftFootRotation dt).1 ∧
      (SteadyState E c HitL HitR).m_RightFootOffset =
        (TraceFoot E c W c.m_RightFootSocket c.m_RightFootOffset c.m_RightFootRotation dt).1 ∧
      (SteadyState E c HitL HitR).m_HipOffset =
        min (min (SteadyState E c HitL HitR).m_LeftFootOffset
          (SteadyState E c HitL HitR).m_RightFootOffset) 0 ∧
      (SteadyState E c HitL HitR).m_LeftEffectorLocation =
        (SteadyState E c HitL HitR).m_LeftFootOffset - (SteadyState E c HitL HitR).m_HipOffset ∧
      (SteadyState E c HitL HitR).m_RightEffectorLocation =
        (SteadyState E c HitL HitR).m_RightFootOffset - (SteadyState E c HitL HitR).m_HipOffset ∧
      (SteadyState E c HitL HitR).CapsuleHalfHeight =
        c.m_CapsuleHalfHeight - |(SteadyState E c HitL HitR).m_HipOffset| / 2 ∧
      (SteadyState E c HitL HitR).m_LeftFootRotation = TraceFoot.NewRotation E HitL ∧
      (SteadyState E c HitL HitR).m_RightFootRotation = TraceFoot.NewRotation E HitR) ∧
    (ConvergesTo (fun n => (runTicks E c (List.replicate n (W, dt))).m_HipOffset)
        (SteadyState E c HitL HitR).m_HipOffset ∧
      ConvergesTo (fun n => (runTicks E c (List.replicate n (W, dt))).m_LeftEffectorLocation)
        (SteadyState E c HitL HitR).m_LeftEffectorLocation ∧
      ConvergesTo (fun n => (runTicks E c (List.replicate n (W, dt))).m_RightEffectorLocation)
        (SteadyState E c HitL HitR).m_RightEffectorLocation ∧
      ConvergesTo (fun n => (runTicks E c (List.replicate n (W, dt))).CapsuleHalfHeight)
        (SteadyState E c HitL HitR).CapsuleHalfHeight ∧
      (ConvergesTo (fun n => (runTicks E c (List.replicate n (W, dt))).m_LeftFootRotation.Pitch)
          (SteadyState E c HitL HitR).m_LeftFootRotation.Pitch ∧
        ConvergesTo (fun n => (runTicks E c (List.replicate n (W, dt))).m_LeftFootRotation.Yaw)
          (SteadyState E c HitL HitR).m_LeftFootRotation.Yaw ∧
        ConvergesTo (fun n => (runTicks E c (List.replicate n (W, dt))).m_LeftFootRotation.Roll)
          (SteadyState E c HitL HitR).m_LeftFootRotation.Roll) ∧
      (ConvergesTo (fun n => (runTicks E c (List.replicate n (W, dt))).m_RightFootRotation.Pitch)
          (SteadyState E c HitL HitR).m_RightFootRotation.Pitch ∧
        ConvergesTo (fun n => (runTicks E c (List.replicate n (W, dt))).m_RightFootRotation.Yaw)
          (SteadyState E c HitL HitR).m_RightFootRotation.Yaw ∧
        ConvergesTo (fun n => (runTicks E c (List.replicate n (W, dt))).m_RightFootRotation.Roll)
          (SteadyState E c HitL HitR).m_RightFootRotation.Roll)) ∧
    (∀ c' : AFpsIkCharacter α, SameTunings c c' →
      c'.m_HipOffset = (SteadyState E c HitL HitR).m_HipOffset →
      c'.m_LeftEffectorLocation = (SteadyState E c HitL HitR).m_LeftEffectorLocation →
      c'.m_RightEffectorLocation = (SteadyState E c HitL HitR).m_RightEffectorLocation →
      c'.CapsuleHalfHeight = (SteadyState E c HitL HitR).CapsuleHalfHeight →
      c'.m_LeftFootRotation = (SteadyState E c HitL HitR).m_LeftFootRotation →
      c'.m_RightFootRotation = (SteadyState E c HitL HitR).m_RightFootRotation →
      (Tick E c' W dt).m_HipOffset = c'.m_HipOffset ∧
        (Tick E c' W dt).m_LeftEffectorLocation = c'.m_LeftEffectorLocation ∧
        (Tick E c' W dt).m_RightEffectorLocation = c'.m_RightEffectorLocation ∧
        (Tick E c' W dt).CapsuleHalfHeight = c'.CapsuleHalfHeight ∧
        (Tick E c' W dt).m_LeftFootRotation = c'.m_LeftFootRotation ∧
        (Tick E c' W dt).m_RightFootRotation = c'.m_RightFootRotation) := by
  have hHip := hF dt c.m_HipInterpSpeed hdt hsH
  have hFoot := hF dt c.m_FootInterpSpeed hdt hsF
  have hRot := hRc dt c.m_FootInterpSpeed hdt hsF
  refine ⟨⟨?_, ?_, rfl, rfl, rfl, rfl, rfl, rfl⟩,
    runTicks_steady_converges E c W dt HitL HitR hgate hL hR hHip hFoot hRot,
    fun c' hc e1 e2 e3 e4 e5 e6 =>
      tick_steady_fixed E c c' W dt HitL HitR hc hgate hL hR hHip hFoot hRot e1 e2 e3 e4 e5 e6⟩
  · rw [traceFoot_of_some E c W _ _ _ dt HitL hL]
    rfl
  · rw [traceFoot_of_some E c W _ _ _ dt HitR hR]
    rfl

/-- The hypotheses of `steady_state_fixed_point` hold for the exponential steps of
the spec over the reals, the constructed character, `DeltaTime = 1/60`, and the
standing world with a left hit 45 and a right hit 50 above the bottom ends. -/
theorem steady_state_fixed_point_witness :
    (∀ dt s : ℝ, 0 < dt → 0 < s →
        Contracting (specEngine Real.sqrt Real.exp Real.arctan Real.pi).FInterpTo dt s) ∧
      (∀ dt s : ℝ, 0 < dt → 0 < s →
        RContracting (specEngine Real.sqrt Real.exp Real.arctan Real.pi).RInterpTo dt s) ∧
      (0 : ℝ) < (AFpsIkCharacter.ctor : AFpsIkCharacter ℝ).m_FootInterpSpeed ∧
      (0 : ℝ) < (AFpsIkCharacter.ctor : AFpsIkCharacter ℝ).m_HipInterpSpeed ∧
      (0 : ℝ) < 1 / 60 ∧
      (specEngine Real.sqrt Real.exp Real.arctan Real.pi).IsNearlyZero
        ((specEngine Real.sqrt Real.exp Real.arctan Real.pi).Size
          (World.standing (some ((45 : ℝ), ⟨0, 0, 1⟩)) (some (50, ⟨0, 0, 1⟩))).Velocity) = true ∧
      ConvergesTo
        (fun n => (runTicks (specEngine Real.sqrt Real.exp Real.arctan Real.pi)
          AFpsIkCharacter.ctor
          (List.replicate n
            (World.standing (some ((45 : ℝ), ⟨0, 0, 1⟩)) (some (50, ⟨0, 0, 1⟩)),
              1 / 60))).m_HipOffset)
        (SteadyState (specEngine Real.sqrt Real.exp Real.arctan Real.pi) AFpsIkCharacter.ctor
          ⟨⟨0, -10, 0 - 96 - 55 + 45⟩, ⟨0, 0, 1⟩, ⟨0, -10, 0⟩, ⟨0, -10, 0 - 96 - 55⟩⟩
          ⟨⟨0, 10, 0 - 96 - 55 + 50⟩, ⟨0, 0, 1⟩, ⟨0, 10, 0⟩,
            ⟨0, 10, 0 - 96 - 55⟩⟩).m_HipOffset := by
  have hF : ∀ dt s : ℝ, 0 < dt → 0 < s →
      Contracting (specEngine Real.sqrt Real.exp Real.arctan Real.pi).FInterpTo dt s :=
    fun dt s hdt hs => expInterpTo_real_contracting dt s hdt hs
  have hRc : ∀ dt s : ℝ, 0 < dt → 0 < s →
      RContracting (specEngine Real.sqrt Real.exp Real.arctan Real.pi).RInterpTo dt s :=
    fun dt s hdt hs => real_specRInterpTo_contracting Real.sqrt Real.arctan Real.pi dt s hdt hs
  have h13 : (0 : ℝ) < (AFpsIkCharacter.ctor : AFpsIkCharacter ℝ).m_FootInterpSpeed := by
    show (0 : ℝ) < 13
    norm_num
  have h7 : (0 : ℝ) < (AFpsIkCharacter.ctor : AFpsIkCharacter ℝ).m_HipInterpSpeed := by
    show (0 : ℝ) < 7
    norm_num
  have hg := real_gate_standing Real.exp Real.arctan Real.pi (some ((45 : ℝ), ⟨0, 0, 1⟩))
    (some (50, ⟨0, 0, 1⟩))
  have hL := lineTrace_standing_left (AFpsIkCharacter.ctor : AFpsIkCharacter ℝ)
    (some ((45 : ℝ), ⟨0, 0, 1⟩)) (some (50, ⟨0, 0, 1⟩))
  have hR := lineTrace_standing_right (AFpsIkCharacter.ctor : AFpsIkCharacter ℝ)
    (some ((45 : ℝ), ⟨0, 0, 1⟩)) (some (50, ⟨0, 0, 1⟩))
  exact ⟨hF, hRc, h13, h7, by norm_num, hg,
    (steady_state_fixed_point _ hF hRc AFpsIkCharacter.ctor h13 h7 _ (1 / 60) (by norm_num)
      _ _ hg hL hR).2.1.1⟩

end Claims

end FpsIk
